import Mathlib

/-! Shallow embedding of the `http-cache` decision engine
(`src/http-cache/src/lib.rs`) and proofs about its behaviour.

The engine is modelled as a pure function over:
  * a `Middleware` record — the client-adapter oracle: every adapter call the
    engine makes during one request (`parts()`, `url()`, `remote_fetch()`,
    policy derivation, ...) is a field holding that call's outcome;
  * a `World` record — fault injection for the storage backend
    (`get`/`put`/`delete` errors), the outcome of the opaque policy
    evaluator's `after_response` call, and the HTTP-date string that
    `SystemTime::now()` renders to inside `add_warning`;
  * a `Store` — the storage backend's key/value state, modelled as an
    association list with single-key operations.

A run produces an `Outcome` (response, propagated error, or panic — the
source can panic in `HttpResponse::add_warning` when the URL has no host),
the final store, and a chronological list of storage/network `Event`s.
`Outcome.ok` additionally carries a ghost boolean recording whether the
returned body bytes originate from the stored entry (cache) or from the
network; it instruments provenance only and influences nothing.
-/

namespace HCache

/-- Error values surfaced by the engine (`error.rs` taxonomy, collapsed:
`bad_status` for `StatusCode::from_u16` failures, `bad_header` for header
conversion failures, `external n` for opaque adapter/storage errors). -/
inductive Err where
  | bad_status : Err
  | bad_header : Err
  | external : Nat → Err
deriving DecidableEq

/-- The `HttpVersion` enum from the source. -/
inductive HttpVersion where
  | Http09 | Http10 | Http11 | H2 | H3
deriving DecidableEq

/-- The `HitOrMiss` enum from the source. -/
inductive HitOrMiss where
  | HIT | MISS
deriving DecidableEq

/-- The `Display` impl for `HitOrMiss`. -/
def HitOrMiss.render : HitOrMiss → String
  | .HIT => "HIT"
  | .MISS => "MISS"

/-- The `XCACHE` header-name constant from the source. -/
def XCACHE : String := "x-cache"

/-- The `XCACHELOOKUP` header-name constant from the source. -/
def XCACHELOOKUP : String := "x-cache-lookup"

/-- A URL, reduced to the two observations the engine makes of it:
its full rendering and its optional host component (`url.host()`). -/
structure Url where
  full : String
  host : Option String
deriving DecidableEq

/-- Header maps. The source uses `HashMap<String, String>`; the engine only
ever reads and writes lowercase keys, and the map is modelled as an
association list whose `insert` overwrites the existing binding. -/
abbrev Headers := List (String × String)

/-- HashMap `get`. -/
def hGet (hs : Headers) (k : String) : Option String :=
  (hs.find? (fun p => p.1 == k)).map (fun p => p.2)

/-- HashMap `insert` (overwrites any existing binding for the key). -/
def hInsert (hs : Headers) (k v : String) : Headers :=
  (k, v) :: hs.filter (fun p => p.1 != k)

/-- HashMap `remove`. -/
def hRemove (hs : Headers) (k : String) : Headers :=
  hs.filter (fun p => p.1 != k)

/-- Serializable response head (`Parts` struct from the source). -/
structure Parts where
  headers : Headers
  status : Nat
  url : Url
  version : HttpVersion
deriving DecidableEq

/-- The `HttpResponse` struct: body plus parts. The engine treats the body as
opaque bytes; it is modelled as a `String`. -/
structure HttpResponse where
  body : String
  parts : Parts
deriving DecidableEq

/-- Rust `str::parse::<usize>` on a small string: an optional leading `+`
(character 43), then a nonempty all-digit string. -/
def parseUsize? (s : String) : Option Nat :=
  match s.data with
  | [] => none
  | c :: rest =>
    let ds := if c.toNat == 43 then rest else c :: rest
    if ds.isEmpty then none
    else if ds.all (fun d => 48 ≤ d.toNat && d.toNat ≤ 57) then
      some (ds.foldl (fun acc d => acc * 10 + (d.toNat - 48)) 0)
    else none

/-- The `HttpResponse::warning_code`: parse the first three characters of the
`warning` header (`chars().take(3)`) as a decimal integer. -/
def HttpResponse.warning_code (r : HttpResponse) : Option Nat :=
  (hGet r.parts.headers "warning").bind fun hdr =>
    parseUsize? (String.mk (hdr.data.take 3))

/-- Rust `{:?}` formatting of a string message: surrounding quotes with
backslash and quote escaped (the engine only ever passes messages made of
plain letters and spaces, for which this is exact). -/
def debugFmt (s : String) : String :=
  "\"" ++ String.join (s.data.map (fun c =>
    if c.toNat == 34 then "\\\""
    else if c.toNat == 92 then "\\\\"
    else String.singleton c)) ++ "\""

/-- The `warning` header value produced by `HttpResponse::add_warning`:
`format!("{} {} {:?} \"{}\"", code, host, message, http-date-now)`. -/
def warning_value (code : Nat) (host message now : String) : String :=
  Nat.repr code ++ " " ++ host ++ " " ++ debugFmt message ++ " \"" ++ now ++ "\""

/-- The `HttpResponse::add_warning`. The source does
`url.host().expect("Invalid URL")`: when the URL has no host component the
call panics, modelled here as `none`. `now` is the HTTP-date rendering of
`SystemTime::now()`. -/
def HttpResponse.add_warning (r : HttpResponse) (url : Url) (code : Nat)
    (message now : String) : Option HttpResponse :=
  match url.host with
  | none => none
  | some h =>
    some { r with parts := { r.parts with
      headers := hInsert r.parts.headers "warning" (warning_value code h message now) } }

/-- The `HttpResponse::remove_warning`. -/
def HttpResponse.remove_warning (r : HttpResponse) : HttpResponse :=
  { r with parts := { r.parts with headers := hRemove r.parts.headers "warning" } }

/-- The `HttpResponse::update_headers`: insert every foreign header pair,
overwriting existing keys. -/
def HttpResponse.update_headers (r : HttpResponse) (hdrs : Headers) : HttpResponse :=
  { r with parts := { r.parts with
    headers := hdrs.foldl (fun hs kv => hInsert hs kv.1 kv.2) r.parts.headers } }

/-- Bool test that the character list `needle` occurs inside `hay`. -/
def containsSeq (needle : List Char) : List Char → Bool
  | [] => needle.isEmpty
  | c :: t => needle.isPrefixOf (c :: t) || containsSeq needle t

/-- The `HttpResponse::must_revalidate`: the lowercased `cache-control` header
value contains the substring `must-revalidate` (lowercasing modelled
per-character; the engine's own header values are ASCII). -/
def HttpResponse.must_revalidate (r : HttpResponse) : Bool :=
  match hGet r.parts.headers "cache-control" with
  | some v => containsSeq "must-revalidate".data (v.data.map Char.toLower)
  | none => false

/-- The `HttpResponse::cache_status`: set the `x-cache` header. -/
def HttpResponse.cache_status (r : HttpResponse) (hm : HitOrMiss) : HttpResponse :=
  { r with parts := { r.parts with
    headers := hInsert r.parts.headers XCACHE hm.render } }

/-- The `HttpResponse::cache_lookup_status`: set the `x-cache-lookup` header. -/
def HttpResponse.cache_lookup_status (r : HttpResponse) (hm : HitOrMiss) : HttpResponse :=
  { r with parts := { r.parts with
    headers := hInsert r.parts.headers XCACHELOOKUP hm.render } }

/-- Valid `http::HeaderName` character (HTTP token characters; uppercase
letters are accepted and normalised by `HeaderName::from_str`). -/
def validHeaderNameChar (c : Char) : Bool :=
  c.isAlphanum ||
    [33, 35, 36, 37, 38, 39, 42, 43, 45, 46, 94, 95, 96, 124, 126].contains c.toNat

/-- Valid `http::HeaderValue` character: horizontal tab or any byte that is
at least 0x20 and not 0x7F (characters above 0xFF encode to bytes that
satisfy the same test). -/
def validHeaderValueChar (c : Char) : Bool :=
  c.toNat == 9 || (32 ≤ c.toNat && c.toNat != 127)

/-- Success condition of `HttpResponse::parts()` (conversion to
`http::response::Parts`): the status must build a `StatusCode` and every
header name and value must parse. -/
def resp_parts_ok (p : Parts) : Bool :=
  (100 ≤ p.status && p.status ≤ 999) &&
    p.headers.all (fun kv =>
      kv.1.length != 0 && kv.1.data.all validHeaderNameChar
        && kv.2.data.all validHeaderValueChar)

/-- The `StatusCode::from_u16`: valid for 100..=999. -/
def status_from_u16 (n : Nat) : Except Err Nat :=
  if 100 ≤ n && n ≤ 999 then .ok n else .error .bad_status

/-- The `StatusCode::is_server_error`: 500..=599. -/
def is_server_error (n : Nat) : Bool :=
  500 ≤ n && n ≤ 599

/-- The `CacheMode` enum from the source. -/
inductive CacheMode where
  | Default | NoStore | Reload | NoCache | ForceCache | OnlyIfCached | IgnoreRules
deriving DecidableEq

/-- Outcome of the opaque policy evaluator's `before_request` call
(`http_cache_semantics::BeforeRequest`): either `Fresh` with response
header parts to merge into the cached response, or `Stale` with request
header parts and a `matches` flag. -/
inductive BeforeRequest where
  | fresh (parts : Headers)
  | stale (request : Headers) (does_match : Bool)
deriving DecidableEq

/-- The `CachePolicy` is opaque to the engine; the model records the two
observations the engine can make of a policy value during one run:
`is_storable()` and the outcome of `before_request` at this run's single
call site. (The `after_response` outcome lives in `World`, since the
policy evaluator is an external collaborator.) -/
structure CachePolicy where
  is_storable : Bool
  before_request : BeforeRequest
deriving DecidableEq

/-- Outcome of the policy evaluator's `after_response` call
(`http_cache_semantics::AfterResponse`): a new policy plus response header
parts to merge. -/
inductive AfterResponse where
  | modified (policy : CachePolicy) (parts : Headers)
  | notModified (policy : CachePolicy) (parts : Headers)
deriving DecidableEq

/-- Serializable request head: the components the engine reads from
`http::request::Parts` (method and URI, used by key derivation and passed
to the caller-supplied closures). -/
structure ReqParts where
  method : String
  uri : String
deriving DecidableEq

/-- The `HttpCacheOptions` struct: caller-supplied configuration. `cache_options`
is opaque to the engine (only its presence selects `policy_with_options`
over `policy`), hence `Option Unit`. -/
structure HttpCacheOptions where
  cache_options : Option Unit
  cache_key : Option (ReqParts → String)
  cache_mode_fn : Option (ReqParts → CacheMode)
  cache_bust : Option (ReqParts → Option (ReqParts → String) → String → List String)
  cache_status_headers : Bool

/-- The `HttpCacheOptions::create_cache_key`: the caller-supplied key function
fully replaces the default `"{METHOD}:{URI}"`; `override_method`
substitutes the method component only in the default derivation. -/
def HttpCacheOptions.create_cache_key (o : HttpCacheOptions) (parts : ReqParts)
    (override_method : Option String) : String :=
  match o.cache_key with
  | some f => f parts
  | none => (override_method.getD parts.method) ++ ":" ++ parts.uri

/-- The `HttpCache` struct (the manager is modelled by `World` + `Store`). -/
structure HttpCache where
  mode : CacheMode
  options : HttpCacheOptions

/-- Middleware oracle: one field per adapter call the engine can make
during a request, holding that call's outcome. -/
structure Middleware where
  overridden_cache_mode : Option CacheMode
  is_method_get_head : Bool
  parts : Except Err ReqParts
  url : Except Err Url
  policy : HttpResponse → Except Err CachePolicy
  policy_with_options : HttpResponse → Except Err CachePolicy
  update_headers : Except Err Unit
  force_no_cache : Except Err Unit
  remote_fetch : Except Err HttpResponse

/-- Storage-backend fault injection plus the remaining environment
nondeterminism: the `after_response` outcome of the opaque policy
evaluator and the HTTP-date string rendered from `SystemTime::now()`. -/
structure World where
  get_error : Option Err
  put_error : Option Err
  delete_error : String → Option Err
  after_response : AfterResponse
  now : String

/-- Storage state: `cache_key → (response, policy)`. -/
abbrev Store := List (String × (HttpResponse × CachePolicy))

/-- Storage lookup. -/
def store_get (s : Store) (k : String) : Option (HttpResponse × CachePolicy) :=
  (s.find? (fun p => p.1 == k)).map (fun p => p.2)

/-- Storage insert (overwrites any existing entry for the key). -/
def store_insert (s : Store) (k : String) (r : HttpResponse) (p : CachePolicy) : Store :=
  (k, (r, p)) :: s.filter (fun q => q.1 != k)

/-- Storage delete. -/
def store_remove (s : Store) (k : String) : Store :=
  s.filter (fun q => q.1 != k)

/-- The `CacheManager::get` with fault injection. -/
def mgr_get (w : World) (s : Store) (k : String) :
    Except Err (Option (HttpResponse × CachePolicy)) :=
  match w.get_error with
  | some e => .error e
  | none => .ok (store_get s k)

/-- The `CacheManager::put` with fault injection. The source's `put` returns the
stored response (possibly re-wrapped) for the caller to forward; in the
model the returned response is the stored one unchanged, so `put` yields
only the new store and callers forward the response they stored. -/
def mgr_put (w : World) (s : Store) (k : String) (r : HttpResponse)
    (p : CachePolicy) : Except Err Store :=
  match w.put_error with
  | some e => .error e
  | none => .ok (store_insert s k r p)

/-- The `CacheManager::delete` with fault injection. -/
def mgr_delete (w : World) (s : Store) (k : String) : Except Err Store :=
  match w.delete_error k with
  | some e => .error e
  | none => .ok (store_remove s k)

/-- Storage/network operations performed by a run, in order. `get` records
whether the lookup found an entry. -/
inductive Event where
  | fetch : Event
  | get (key : String) (found : Bool) : Event
  | put (key : String) : Event
  | delete (key : String) : Event
deriving DecidableEq

/-- Result of a run: response / propagated error / panic. `ok` carries a
ghost flag: `true` iff the returned body bytes come from the stored entry
rather than from the network. -/
inductive Outcome where
  | ok (res : HttpResponse) (fromCache : Bool) : Outcome
  | err (e : Err) : Outcome
  | panicked : Outcome
deriving DecidableEq

/-- A run's outcome, final store, and chronological event list. -/
abbrev RunResult := Outcome × Store × List Event

/-- Prepend events (used when gluing a sub-phase's result onto the events
already performed). -/
def with_events (pre : List Event) (r : RunResult) : RunResult :=
  (r.1, r.2.1, pre ++ r.2.2)

/-- The `remote_fetch` lines 715-718 (and the miss-path 689-692): tag
`x-cache: MISS` then `x-cache-lookup: MISS` when status headers are
enabled. -/
def miss_tag (csh : Bool) (r : HttpResponse) : HttpResponse :=
  if csh then (r.cache_status .MISS).cache_lookup_status .MISS else r

/-- Lines 719-722 / 826-830: derive a fresh `CachePolicy` via
`policy_with_options` when `cache_options` is set, else `policy`. -/
def derive_policy (c : HttpCache) (m : Middleware) (r : HttpResponse) :
    Except Err CachePolicy :=
  match c.options.cache_options with
  | some _ => m.policy_with_options r
  | none => m.policy r

/-- The `HttpCache::cache_mode`: adapter override, then `cache_mode_fn`, then
the engine's static mode. -/
def HttpCache.cache_mode (c : HttpCache) (m : Middleware) : Except Err CacheMode :=
  match m.overridden_cache_mode with
  | some mode => .ok mode
  | none =>
    match c.options.cache_mode_fn with
    | some f => m.parts.map f
    | none => .ok c.mode

/-- The `HttpCache::can_cache_request`: mode is `IgnoreRules`, or the method is
GET/HEAD and the mode is not `NoStore`. -/
def HttpCache.can_cache_request (c : HttpCache) (m : Middleware) : Except Err Bool :=
  (c.cache_mode m).map (fun mode =>
    mode == CacheMode.IgnoreRules
      || (m.is_method_get_head && mode != CacheMode.NoStore))

/-- The `HttpCache::remote_fetch` (the write-through step): fetch, tag MISS,
derive a policy, store if storable, else invalidate the sibling GET entry
for non-GET/HEAD methods (that delete's error is discarded, `.ok()`). -/
def HttpCache.remote_fetch (c : HttpCache) (w : World) (m : Middleware)
    (s : Store) : RunResult :=
  match m.remote_fetch with
  | .error e => (.err e, s, [Event.fetch])
  | .ok res0 =>
    let res := miss_tag c.options.cache_status_headers res0
    match derive_policy c m res with
    | .error e => (.err e, s, [Event.fetch])
    | .ok policy =>
      let is_get_head := m.is_method_get_head
      match c.cache_mode m with
      | .error e => (.err e, s, [Event.fetch])
      | .ok mode =>
        let is_cacheable :=
          (is_get_head && mode != CacheMode.NoStore && res.parts.status == 200
            && policy.is_storable)
          || (mode == CacheMode.IgnoreRules && res.parts.status == 200)
        if is_cacheable then
          match m.parts with
          | .error e => (.err e, s, [Event.fetch])
          | .ok parts =>
            let key := c.options.create_cache_key parts none
            match mgr_put w s key res policy with
            | .error e => (.err e, s, [Event.fetch, Event.put key])
            | .ok s1 => (.ok res false, s1, [Event.fetch, Event.put key])
        else if !is_get_head then
          match m.parts with
          | .error e => (.err e, s, [Event.fetch])
          | .ok parts =>
            let gkey := c.options.create_cache_key parts (some "GET")
            let s1 := match mgr_delete w s gkey with
                      | .error _ => s
                      | .ok s2 => s2
            (.ok res false, s1, [Event.fetch, Event.delete gkey])
        else
          (.ok res false, s, [Event.fetch])

/-- The `run` lines 629-643: strip a stored warning whose code is in
`[100, 200)` (RFC 7234 §4.3.4). -/
def hit_strip (r1 : HttpResponse) : HttpResponse :=
  match r1.warning_code with
  | some wc => if 100 ≤ wc ∧ wc < 200 then r1.remove_warning else r1
  | none => r1

/-- The `run` lines 626-643: on a store hit, tag `x-cache-lookup: HIT` (when
enabled) and strip a stored 1xx warning. -/
def hit_prep (csh : Bool) (r : HttpResponse) : HttpResponse :=
  hit_strip (if csh then r.cache_lookup_status .HIT else r)

/-- The `HttpCache::conditional_fetch` (conditional revalidation). `cached0` is
the stored response after `hit_prep`. -/
def HttpCache.conditional_fetch (c : HttpCache) (w : World) (m : Middleware)
    (cached0 : HttpResponse) (policy : CachePolicy) (s : Store) : RunResult :=
  let csh := c.options.cache_status_headers
  match m.parts with
  | .error e => (.err e, s, [])
  | .ok req_parts =>
    match policy.before_request with
    | .fresh parts =>
      let cached1 := cached0.update_headers parts
      let cached2 :=
        if csh then (cached1.cache_status .HIT).cache_lookup_status .HIT else cached1
      (.ok cached2 true, s, [])
    | .stale _request does_match =>
      match (if does_match then m.update_headers else .ok ()) with
      | .error e => (.err e, s, [])
      | .ok _ =>
        match m.url with
        | .error e => (.err e, s, [])
        | .ok req_url =>
          match m.remote_fetch with
          | .error e =>
            if cached0.must_revalidate then (.err e, s, [Event.fetch])
            else
              match cached0.add_warning req_url 111 "Revalidation failed" w.now with
              | none => (.panicked, s, [Event.fetch])
              | some cached1 =>
                (.ok (if csh then cached1.cache_status .HIT else cached1) true,
                  s, [Event.fetch])
          | .ok cond_res =>
            match status_from_u16 cond_res.parts.status with
            | .error e => (.err e, s, [Event.fetch])
            | .ok status =>
              if is_server_error status && cached0.must_revalidate then
                match cached0.add_warning req_url 111 "Revalidation failed" w.now with
                | none => (.panicked, s, [Event.fetch])
                | some cached1 =>
                  (.ok (if csh then cached1.cache_status .HIT else cached1) true,
                    s, [Event.fetch])
              else if cond_res.parts.status == 304 then
                if resp_parts_ok cond_res.parts then
                  match w.after_response with
                  | .modified new_policy parts | .notModified new_policy parts =>
                    let cached1 := cached0.update_headers parts
                    let cached2 :=
                      if csh then (cached1.cache_status .HIT).cache_lookup_status .HIT
                      else cached1
                    let key := c.options.create_cache_key req_parts none
                    match mgr_put w s key cached2 new_policy with
                    | .error e => (.err e, s, [Event.fetch, Event.put key])
                    | .ok s1 => (.ok cached2 true, s1, [Event.fetch, Event.put key])
                else (.err .bad_header, s, [Event.fetch])
              else if cond_res.parts.status == 200 then
                match derive_policy c m cond_res with
                | .error e => (.err e, s, [Event.fetch])
                | .ok policy2 =>
                  let cond2 :=
                    if csh then (cond_res.cache_status .MISS).cache_lookup_status .HIT
                    else cond_res
                  let key := c.options.create_cache_key req_parts none
                  match mgr_put w s key cond2 policy2 with
                  | .error e => (.err e, s, [Event.fetch, Event.put key])
                  | .ok s1 => (.ok cond2 false, s1, [Event.fetch, Event.put key])
              else
                (.ok (if csh then cached0.cache_status .HIT else cached0) true,
                  s, [Event.fetch])

/-- The additional keys to delete before lookup (`cache_bust` closure),
empty when no `cache_bust` is configured. -/
def bust_keys (c : HttpCache) (parts : ReqParts) (key : String) : List String :=
  match c.options.cache_bust with
  | some f => f parts c.options.cache_key key
  | none => []

/-- The cache-bust deletion loop of `run`: delete each key in order,
propagating the first delete error (the source applies `?` to each). -/
def cache_bust_deletes (w : World) : List String → Store → Option Err × Store × List Event
  | [], s => (none, s, [])
  | k :: ks, s =>
    match mgr_delete w s k with
    | .error e => (some e, s, [Event.delete k])
    | .ok s1 =>
      let r := cache_bust_deletes w ks s1
      (r.1, r.2.1, Event.delete k :: r.2.2)

/-- The store-hit arm of `run` (lines 645-675): branch on the resolved
mode. `cached` is the stored response after `hit_prep`. -/
def HttpCache.run_hit (c : HttpCache) (w : World) (m : Middleware)
    (cached : HttpResponse) (policy : CachePolicy) (s : Store) : RunResult :=
  let csh := c.options.cache_status_headers
  match c.cache_mode m with
  | .error e => (.err e, s, [])
  | .ok CacheMode.Default => c.conditional_fetch w m cached policy s
  | .ok CacheMode.NoCache =>
    match m.force_no_cache with
    | .error e => (.err e, s, [])
    | .ok _ =>
      let r := c.remote_fetch w m s
      match r.1 with
      | .ok res fc =>
        (.ok (if csh then res.cache_lookup_status .HIT else res) fc, r.2.1, r.2.2)
      | o => (o, r.2.1, r.2.2)
  | .ok CacheMode.ForceCache | .ok CacheMode.OnlyIfCached | .ok CacheMode.IgnoreRules =>
    match cached.add_warning cached.parts.url 112 "Disconnected operation" w.now with
    | none => (.panicked, s, [])
    | some res1 =>
      (.ok (if csh then res1.cache_status .HIT else res1) true, s, [])
  | .ok _ => c.remote_fetch w m s

/-- The store-miss arm of `run` (lines 676-697): synthesize a 504 under
`OnlyIfCached`, otherwise fetch. -/
def HttpCache.run_miss (c : HttpCache) (w : World) (m : Middleware)
    (s : Store) : RunResult :=
  match c.cache_mode m with
  | .error e => (.err e, s, [])
  | .ok CacheMode.OnlyIfCached =>
    match m.url with
    | .error e => (.err e, s, [])
    | .ok u =>
      let res : HttpResponse :=
        { body := "GatewayTimeout",
          parts := { headers := [], status := 504, url := u,
                     version := HttpVersion.Http11 } }
      (.ok (miss_tag c.options.cache_status_headers res) false, s, [])
  | .ok _ => c.remote_fetch w m s

/-- The `HttpCache::run`: the decision engine's per-request state machine. -/
def HttpCache.run (c : HttpCache) (w : World) (m : Middleware) (s : Store) : RunResult :=
  match c.can_cache_request m with
  | .error e => (.err e, s, [])
  | .ok is_cacheable =>
    if !is_cacheable then c.remote_fetch w m s
    else
      match m.parts with
      | .error e => (.err e, s, [])
      | .ok parts =>
        let cache_key := c.options.create_cache_key parts none
        match cache_bust_deletes w (bust_keys c parts cache_key) s with
        | (some e, s1, evs) => (.err e, s1, evs)
        | (none, s1, evs) =>
          match mgr_get w s1 cache_key with
          | .error e => (.err e, s1, evs ++ [Event.get cache_key false])
          | .ok none =>
            with_events (evs ++ [Event.get cache_key false]) (c.run_miss w m s1)
          | .ok (some (res, policy)) =>
            with_events (evs ++ [Event.get cache_key true])
              (c.run_hit w m (hit_prep c.options.cache_status_headers res) policy s1)

/-- Project the response out of an outcome. -/
def outcome_res : Outcome → Option HttpResponse
  | .ok r _ => some r
  | _ => none

/-- Project the ghost body-provenance flag out of an outcome. -/
def outcome_from_cache : Outcome → Option Bool
  | .ok _ fc => some fc
  | _ => none

/-- The policy's `before_request` outcome, when `Fresh`, carries no
`warning` header among the parts it merges into the cached response. -/
def no_warning_before (p : CachePolicy) : Prop :=
  ∀ parts, p.before_request = .fresh parts → hGet parts "warning" = none

/-- The policy's `after_response` outcome carries no `warning` header among
the parts it merges into the cached response. -/
def no_warning_after : AfterResponse → Prop
  | .modified _ parts => hGet parts "warning" = none
  | .notModified _ parts => hGet parts "warning" = none

/-! Section: Concrete fixtures used by counterexamples and witnesses -/

/-- Example request URL. -/
def fxUrl : Url := { full := "http://e.com/", host := some "e.com" }

/-- The default cache key of the example GET request. -/
def fxKey : String := "GET:http://e.com/"

/-- Default options (`HttpCacheOptions::default()`): status headers on,
no overrides. -/
def fxOpts : HttpCacheOptions :=
  { cache_options := none, cache_key := none, cache_mode_fn := none,
    cache_bust := none, cache_status_headers := true }

/-- A stored policy that reports stale without validator match. -/
def fxPolicy : CachePolicy := { is_storable := true, before_request := .stale [] false }

/-- A stored policy that reports fresh. -/
def fxPolicyFresh : CachePolicy := { is_storable := true, before_request := .fresh [] }

/-- Fault-free backend environment. -/
def fxWorld : World :=
  { get_error := none, put_error := none, delete_error := fun _ => none,
    after_response := .notModified fxPolicy [], now := "NOW" }

/-- A stored 200 response with body `test`. -/
def fxEntry : HttpResponse :=
  { body := "test",
    parts := { headers := [("cache-control", "public")], status := 200,
               url := fxUrl, version := .Http11 } }

/-- A stored response whose `cache-control` is `must-revalidate`. -/
def fxEntryMR : HttpResponse :=
  { body := "test",
    parts := { headers := [("cache-control", "must-revalidate")], status := 200,
               url := fxUrl, version := .Http11 } }

/-- A stored response whose URL has no host component. -/
def fxEntryNoHost : HttpResponse :=
  { body := "test",
    parts := { headers := [], status := 200,
               url := { full := "data:x", host := none }, version := .Http11 } }

/-- A network 200 response with body `net`. -/
def fxNet : HttpResponse :=
  { body := "net", parts := { headers := [], status := 200, url := fxUrl, version := .Http11 } }

/-- A well-behaved GET adapter fetching `fxNet`. -/
def fxMw : Middleware :=
  { overridden_cache_mode := none, is_method_get_head := true,
    parts := .ok { method := "GET", uri := "http://e.com/" },
    url := .ok fxUrl,
    policy := fun _ => .ok fxPolicy, policy_with_options := fun _ => .ok fxPolicy,
    update_headers := .ok (), force_no_cache := .ok (),
    remote_fetch := .ok fxNet }

/-- A POST adapter fetching `fxNet`. -/
def fxMwPOST : Middleware :=
  { fxMw with
    is_method_get_head := false,
    parts := .ok { method := "POST", uri := "http://e.com/" } }

/-- A store holding the example entry under the GET key. -/
def fxStore : Store := [(fxKey, (fxEntry, fxPolicy))]

/-! Section: Association-map lemmas -/

theorem find?_filter_comm {α : Type} (p q : α → Bool)
    (h : ∀ x, p x = true → q x = true) :
    ∀ l : List α, (l.filter q).find? p = l.find? p := by
  intro l
  induction l with
  | nil => rfl
  | cons a t ih =>
    by_cases hq : q a = true
    · rw [List.filter_cons_of_pos hq]
      cases hpa : p a with
      | false =>
        rw [List.find?_cons_of_neg _ (by simp [hpa]),
          List.find?_cons_of_neg _ (by simp [hpa]), ih]
      | true =>
        rw [List.find?_cons_of_pos _ hpa, List.find?_cons_of_pos _ hpa]
    · rw [List.filter_cons_of_neg hq]
      have hpa : p a = false := by
        cases hpa : p a
        · rfl
        · exact absurd (h a hpa) hq
      rw [List.find?_cons_of_neg _ (by simp [hpa]), ih]

theorem hGet_insert_self (hs : Headers) (k v : String) :
    hGet (hInsert hs k v) k = some v := by
  unfold hGet hInsert
  rw [List.find?_cons_of_pos _ (by simp)]
  rfl

theorem hGet_insert_ne (hs : Headers) (k v k' : String) (h : k' ≠ k) :
    hGet (hInsert hs k v) k' = hGet hs k' := by
  unfold hGet hInsert
  rw [List.find?_cons_of_neg _ (by simp; exact fun hh => h hh.symm)]
  rw [find?_filter_comm (fun p : String × String => p.1 == k')
    (fun p : String × String => p.1 != k)
    (fun x hx => by
      simp at hx ⊢
      rw [hx]
      exact h)]

theorem hGet_remove_ne (hs : Headers) (k k' : String) (h : k' ≠ k) :
    hGet (hRemove hs k) k' = hGet hs k' := by
  unfold hGet hRemove
  rw [find?_filter_comm (fun p : String × String => p.1 == k')
    (fun p : String × String => p.1 != k)
    (fun x hx => by
      simp at hx ⊢
      rw [hx]
      exact h)]

theorem hGet_remove_self (hs : Headers) (k : String) :
    hGet (hRemove hs k) k = none := by
  unfold hGet hRemove
  rw [List.find?_eq_none.mpr (fun x hx => by
    have := (List.mem_filter.mp hx).2
    simp at this ⊢
    exact this)]
  rfl

theorem hGet_eq_none_iff (hs : Headers) (k : String) :
    hGet hs k = none ↔ ∀ kv ∈ hs, kv.1 ≠ k := by
  unfold hGet
  simp [List.find?_eq_none]

theorem store_get_remove_ne (s : Store) (k k' : String) (h : k' ≠ k) :
    store_get (store_remove s k) k' = store_get s k' := by
  unfold store_get store_remove
  exact congrArg (Option.map (fun p => p.2))
    (find?_filter_comm (fun p : String × (HttpResponse × CachePolicy) => p.1 == k')
      (fun p : String × (HttpResponse × CachePolicy) => p.1 != k)
      (fun x hx => by
        have hx' : x.1 = k' := by simpa using hx
        simpa [hx'] using h) s)

theorem store_get_remove_self (s : Store) (k : String) :
    store_get (store_remove s k) k = none := by
  unfold store_get store_remove
  rw [List.find?_eq_none.mpr (fun x hx => by
    have := (List.mem_filter.mp hx).2
    simp at this ⊢
    exact this)]
  rfl

/-! Section: Response-operation lemmas -/

theorem cache_status_body (r : HttpResponse) (hm : HitOrMiss) :
    (r.cache_status hm).body = r.body := rfl

theorem cache_status_url (r : HttpResponse) (hm : HitOrMiss) :
    (r.cache_status hm).parts.url = r.parts.url := rfl

theorem cache_lookup_status_body (r : HttpResponse) (hm : HitOrMiss) :
    (r.cache_lookup_status hm).body = r.body := rfl

theorem hGet_cache_status_self (r : HttpResponse) (hm : HitOrMiss) :
    hGet (r.cache_status hm).parts.headers XCACHE = some hm.render :=
  hGet_insert_self _ _ _

theorem hGet_cache_status_ne (r : HttpResponse) (hm : HitOrMiss) (k : String)
    (h : k ≠ XCACHE) :
    hGet (r.cache_status hm).parts.headers k = hGet r.parts.headers k :=
  hGet_insert_ne _ _ _ _ h

theorem hGet_cache_lookup_status_self (r : HttpResponse) (hm : HitOrMiss) :
    hGet (r.cache_lookup_status hm).parts.headers XCACHELOOKUP = some hm.render :=
  hGet_insert_self _ _ _

theorem hGet_cache_lookup_status_ne (r : HttpResponse) (hm : HitOrMiss) (k : String)
    (h : k ≠ XCACHELOOKUP) :
    hGet (r.cache_lookup_status hm).parts.headers k = hGet r.parts.headers k :=
  hGet_insert_ne _ _ _ _ h

theorem warning_code_remove (r : HttpResponse) :
    r.remove_warning.warning_code = none := by
  unfold HttpResponse.warning_code
  rw [show r.remove_warning.parts.headers = hRemove r.parts.headers "warning" from rfl,
    hGet_remove_self]
  rfl

theorem warning_code_cache_status (r : HttpResponse) (hm : HitOrMiss) :
    (r.cache_status hm).warning_code = r.warning_code := by
  unfold HttpResponse.warning_code
  rw [hGet_cache_status_ne r hm "warning" (by decide)]

theorem warning_code_cache_lookup_status (r : HttpResponse) (hm : HitOrMiss) :
    (r.cache_lookup_status hm).warning_code = r.warning_code := by
  unfold HttpResponse.warning_code
  rw [hGet_cache_lookup_status_ne r hm "warning" (by decide)]

theorem hGet_foldl_insert_ne (l : Headers) (k : String) (h : ∀ kv ∈ l, kv.1 ≠ k) :
    ∀ hs : Headers, hGet (l.foldl (fun hs kv => hInsert hs kv.1 kv.2) hs) k = hGet hs k := by
  induction l with
  | nil => intro hs; rfl
  | cons a t ih =>
    intro hs
    rw [List.foldl_cons,
      ih (fun kv hkv => h kv (List.mem_cons_of_mem a hkv)),
      hGet_insert_ne _ _ _ _ (Ne.symm (h a (List.mem_cons_self a t)))]

theorem hGet_update_headers_ne (r : HttpResponse) (l : Headers) (k : String)
    (h : ∀ kv ∈ l, kv.1 ≠ k) :
    hGet (r.update_headers l).parts.headers k = hGet r.parts.headers k :=
  hGet_foldl_insert_ne l k h r.parts.headers

theorem warning_code_update_of_none (r : HttpResponse) (l : Headers)
    (h : hGet l "warning" = none) :
    (r.update_headers l).warning_code = r.warning_code := by
  unfold HttpResponse.warning_code
  rw [hGet_update_headers_ne r l "warning" ((hGet_eq_none_iff l "warning").mp h)]

/-! Section: add_warning lemmas -/

theorem add_warning_none (r : HttpResponse) (u : Url) (code : Nat) (msg now : String)
    (h : u.host = none) : r.add_warning u code msg now = none := by
  unfold HttpResponse.add_warning
  rw [h]

theorem add_warning_some (r : HttpResponse) (u : Url) (code : Nat) (msg now host : String)
    (h : u.host = some host) :
    r.add_warning u code msg now = some { r with parts := { r.parts with
      headers := hInsert r.parts.headers "warning" (warning_value code host msg now) } } := by
  unfold HttpResponse.add_warning
  rw [h]

theorem warning_value_code_111 (host msg now : String) :
    parseUsize? (String.mk ((warning_value 111 host msg now).data.take 3)) = some 111 := rfl

theorem warning_value_code_112 (host msg now : String) :
    parseUsize? (String.mk ((warning_value 112 host msg now).data.take 3)) = some 112 := rfl

theorem add_warning_code_111 (r : HttpResponse) (u : Url) (msg now : String)
    (r' : HttpResponse) (h : r.add_warning u 111 msg now = some r') :
    r'.warning_code = some 111 := by
  cases hu : u.host with
  | none => rw [add_warning_none r u 111 msg now hu] at h; exact absurd h (by simp)
  | some host =>
    rw [add_warning_some r u 111 msg now host hu] at h
    injection h with h
    subst h
    unfold HttpResponse.warning_code
    rw [show ({ r with parts := { r.parts with
        headers := hInsert r.parts.headers "warning"
          (warning_value 111 host msg now) } } : HttpResponse).parts.headers =
      hInsert r.parts.headers "warning" (warning_value 111 host msg now) from rfl]
    rw [hGet_insert_self]
    exact warning_value_code_111 host msg now

theorem add_warning_code_112 (r : HttpResponse) (u : Url) (msg now : String)
    (r' : HttpResponse) (h : r.add_warning u 112 msg now = some r') :
    r'.warning_code = some 112 := by
  cases hu : u.host with
  | none => rw [add_warning_none r u 112 msg now hu] at h; exact absurd h (by simp)
  | some host =>
    rw [add_warning_some r u 112 msg now host hu] at h
    injection h with h
    subst h
    unfold HttpResponse.warning_code
    rw [show ({ r with parts := { r.parts with
        headers := hInsert r.parts.headers "warning"
          (warning_value 112 host msg now) } } : HttpResponse).parts.headers =
      hInsert r.parts.headers "warning" (warning_value 112 host msg now) from rfl]
    rw [hGet_insert_self]
    exact warning_value_code_112 host msg now

theorem add_warning_body (r : HttpResponse) (u : Url) (code : Nat) (msg now : String)
    (r' : HttpResponse) (h : r.add_warning u code msg now = some r') :
    r'.body = r.body := by
  cases hu : u.host with
  | none => rw [add_warning_none r u code msg now hu] at h; exact absurd h (by simp)
  | some host =>
    rw [add_warning_some r u code msg now host hu] at h
    injection h with h
    subst h
    rfl

theorem hGet_add_warning_ne (r : HttpResponse) (u : Url) (code : Nat) (msg now : String)
    (r' : HttpResponse) (k : String) (hk : k ≠ "warning")
    (h : r.add_warning u code msg now = some r') :
    hGet r'.parts.headers k = hGet r.parts.headers k := by
  cases hu : u.host with
  | none => rw [add_warning_none r u code msg now hu] at h; exact absurd h (by simp)
  | some host =>
    rw [add_warning_some r u code msg now host hu] at h
    injection h with h
    subst h
    exact hGet_insert_ne _ _ _ _ hk

/-! Section: hit_prep lemmas -/

theorem hGet_hit_strip_ne (r1 : HttpResponse) (k : String) (hk : k ≠ "warning") :
    hGet (hit_strip r1).parts.headers k = hGet r1.parts.headers k := by
  unfold hit_strip
  split
  · split
    · exact hGet_remove_ne _ _ _ hk
    · rfl
  · rfl

theorem hit_strip_warning_code (r1 : HttpResponse) (wc : Nat)
    (h : (hit_strip r1).warning_code = some wc) : ¬(100 ≤ wc ∧ wc < 200) := by
  unfold hit_strip at h
  cases hw : r1.warning_code with
  | none =>
    rw [hw] at h
    have h' : r1.warning_code = some wc := h
    rw [hw] at h'
    exact absurd h' (by simp)
  | some wc0 =>
    rw [hw] at h
    have h' : (if 100 ≤ wc0 ∧ wc0 < 200 then r1.remove_warning else r1).warning_code
        = some wc := h
    by_cases hrange : 100 ≤ wc0 ∧ wc0 < 200
    · rw [if_pos hrange, warning_code_remove] at h'
      exact absurd h' (by simp)
    · rw [if_neg hrange, hw] at h'
      injection h' with h'
      subst h'
      exact hrange

theorem hit_strip_url (r1 : HttpResponse) :
    (hit_strip r1).parts.url = r1.parts.url := by
  unfold hit_strip
  split
  · split <;> rfl
  · rfl

theorem hit_strip_body (r1 : HttpResponse) :
    (hit_strip r1).body = r1.body := by
  unfold hit_strip
  split
  · split <;> rfl
  · rfl

theorem hit_prep_lookup (r : HttpResponse) :
    hGet (hit_prep true r).parts.headers XCACHELOOKUP = some "HIT" := by
  unfold hit_prep
  rw [hGet_hit_strip_ne _ _ (by decide)]
  exact hGet_cache_lookup_status_self r .HIT

theorem hit_prep_warning_code (csh : Bool) (r : HttpResponse) (wc : Nat)
    (h : (hit_prep csh r).warning_code = some wc) : ¬(100 ≤ wc ∧ wc < 200) :=
  hit_strip_warning_code _ wc h

theorem hit_prep_url (csh : Bool) (r : HttpResponse) :
    (hit_prep csh r).parts.url = r.parts.url := by
  unfold hit_prep
  rw [hit_strip_url]
  cases csh <;> rfl

theorem hit_prep_body (csh : Bool) (r : HttpResponse) :
    (hit_prep csh r).body = r.body := by
  unfold hit_prep
  rw [hit_strip_body]
  cases csh <;> rfl

/-! Section: with_events and cache-bust lemmas -/

theorem with_events_fst (pre : List Event) (r : RunResult) :
    (with_events pre r).1 = r.1 := rfl

theorem with_events_store (pre : List Event) (r : RunResult) :
    (with_events pre r).2.1 = r.2.1 := rfl

theorem with_events_events (pre : List Event) (r : RunResult) :
    (with_events pre r).2.2 = pre ++ r.2.2 := rfl

theorem cache_bust_deletes_events (w : World) :
    ∀ (ks : List String) (s : Store) (e : Event),
      e ∈ (cache_bust_deletes w ks s).2.2 → ∃ k, e = Event.delete k := by
  intro ks
  induction ks with
  | nil => intro s e he; simp [cache_bust_deletes] at he
  | cons k t ih =>
    intro s e he
    unfold cache_bust_deletes at he
    cases hd : mgr_delete w s k with
    | error e' =>
      rw [hd] at he
      simp at he
      exact ⟨k, he⟩
    | ok s1 =>
      rw [hd] at he
      simp at he
      rcases he with he | he
      · exact ⟨k, he⟩
      · exact ih s1 e he

theorem cache_bust_deletes_store_get (w : World) :
    ∀ (ks : List String) (s : Store) (k : String) (v : HttpResponse × CachePolicy),
      store_get (cache_bust_deletes w ks s).2.1 k = some v → store_get s k = some v := by
  intro ks
  induction ks with
  | nil => intro s k v h; exact h
  | cons kk t ih =>
    intro s k v h
    unfold cache_bust_deletes at h
    cases hd : mgr_delete w s kk with
    | error e' => rw [hd] at h; exact h
    | ok s1 =>
      rw [hd] at h
      have h1 := ih s1 k v h
      unfold mgr_delete at hd
      cases hde : w.delete_error kk with
      | some e0 => rw [hde] at hd; exact absurd hd (by simp)
      | none =>
        rw [hde] at hd
        injection hd with hd
        subst hd
        by_cases hkk : k = kk
        · subst hkk
          rw [store_get_remove_self] at h1
          exact absurd h1 (by simp)
        · rw [store_get_remove_ne s kk k hkk] at h1
          exact h1

/-! Section: miss_tag lemmas -/

theorem miss_tag_xcache (r : HttpResponse) :
    hGet (miss_tag true r).parts.headers XCACHE = some "MISS" := by
  unfold miss_tag
  rw [if_pos rfl]
  rw [hGet_cache_lookup_status_ne _ _ _ (by decide)]
  exact hGet_cache_status_self r .MISS

theorem miss_tag_lookup (r : HttpResponse) :
    hGet (miss_tag true r).parts.headers XCACHELOOKUP = some "MISS" := by
  unfold miss_tag
  rw [if_pos rfl]
  exact hGet_cache_lookup_status_self _ .MISS

theorem miss_tag_status (csh : Bool) (r : HttpResponse) :
    (miss_tag csh r).parts.status = r.parts.status := by
  unfold miss_tag
  cases csh <;> rfl

theorem miss_tag_body (csh : Bool) (r : HttpResponse) :
    (miss_tag csh r).body = r.body := by
  unfold miss_tag
  cases csh <;> rfl

/-! Section: remote_fetch lemmas -/

theorem remote_fetch_no_get (c : HttpCache) (w : World) (m : Middleware) (s : Store)
    (k : String) (b : Bool) : Event.get k b ∉ (c.remote_fetch w m s).2.2 := by
  unfold HttpCache.remote_fetch
  cases hf : m.remote_fetch with
  | error e => simp
  | ok res0 =>
    dsimp only
    cases hp : derive_policy c m (miss_tag c.options.cache_status_headers res0) with
    | error e => simp
    | ok policy =>
      dsimp only
      cases hm : c.cache_mode m with
      | error e => simp
      | ok mode =>
        dsimp only
        split
        · cases hparts : m.parts with
          | error e => simp
          | ok parts =>
            dsimp only
            cases hput : mgr_put w s (c.options.create_cache_key parts none)
                (miss_tag c.options.cache_status_headers res0) policy with
            | error e => simp
            | ok s1 => simp
        · split
          · cases hparts : m.parts with
            | error e => simp
            | ok parts => simp
          · simp

theorem remote_fetch_ok (c : HttpCache) (w : World) (m : Middleware) (s : Store)
    (res : HttpResponse) (fc : Bool)
    (h : (c.remote_fetch w m s).1 = .ok res fc) :
    fc = false ∧ (c.options.cache_status_headers = true →
      hGet res.parts.headers XCACHE = some "MISS" ∧
      hGet res.parts.headers XCACHELOOKUP = some "MISS") := by
  unfold HttpCache.remote_fetch at h
  cases hf : m.remote_fetch with
  | error e => rw [hf] at h; simp at h
  | ok res0 =>
    rw [hf] at h
    dsimp only at h
    cases hp : derive_policy c m (miss_tag c.options.cache_status_headers res0) with
    | error e => rw [hp] at h; simp at h
    | ok policy =>
      rw [hp] at h
      dsimp only at h
      cases hm : c.cache_mode m with
      | error e => rw [hm] at h; simp at h
      | ok mode =>
        rw [hm] at h
        dsimp only at h
        split at h
        · cases hparts : m.parts with
          | error e => rw [hparts] at h; simp at h
          | ok parts =>
            rw [hparts] at h
            dsimp only at h
            cases hput : mgr_put w s (c.options.create_cache_key parts none)
                (miss_tag c.options.cache_status_headers res0) policy with
            | error e => rw [hput] at h; simp at h
            | ok s1 =>
              rw [hput] at h
              dsimp only at h
              obtain ⟨hres, hfc⟩ := Outcome.ok.inj h
              subst hres
              refine ⟨hfc.symm, fun hcsh => ?_⟩
              rw [hcsh]
              exact ⟨miss_tag_xcache res0, miss_tag_lookup res0⟩
        · split at h
          · cases hparts : m.parts with
            | error e => rw [hparts] at h; simp at h
            | ok parts =>
              rw [hparts] at h
              dsimp only at h
              obtain ⟨hres, hfc⟩ := Outcome.ok.inj h
              subst hres
              refine ⟨hfc.symm, fun hcsh => ?_⟩
              rw [hcsh]
              exact ⟨miss_tag_xcache res0, miss_tag_lookup res0⟩
          · dsimp only at h
            obtain ⟨hres, hfc⟩ := Outcome.ok.inj h
            subst hres
            refine ⟨hfc.symm, fun hcsh => ?_⟩
            rw [hcsh]
            exact ⟨miss_tag_xcache res0, miss_tag_lookup res0⟩

/-! Section: conditional_fetch lemmas -/

theorem conditional_fetch_no_get (c : HttpCache) (w : World) (m : Middleware)
    (cached0 : HttpResponse) (policy : CachePolicy) (s : Store) (k : String) (b : Bool) :
    Event.get k b ∉ (c.conditional_fetch w m cached0 policy s).2.2 := by
  unfold HttpCache.conditional_fetch
  cases hparts : m.parts with
  | error e => simp
  | ok req_parts =>
    dsimp only
    cases hbr : policy.before_request with
    | fresh parts => simp
    | stale rp mt =>
      dsimp only
      cases hupd : (if mt then m.update_headers else Except.ok ()) with
      | error e => simp
      | ok u =>
        dsimp only
        cases hurl : m.url with
        | error e => simp
        | ok req_url =>
          dsimp only
          cases hrf : m.remote_fetch with
          | error e =>
            dsimp only
            split
            · simp
            · split <;> simp
          | ok cond_res =>
            dsimp only
            cases hst : status_from_u16 cond_res.parts.status with
            | error e => simp
            | ok status =>
              dsimp only
              split
              · split <;> simp
              · split
                · split
                  · split
                    · split <;> simp
                    · split <;> simp
                  · simp
                · split
                  · cases hp2 : derive_policy c m cond_res with
                    | error e => simp
                    | ok policy2 =>
                      dsimp only
                      split <;> simp
                  · simp

/-- Exhaustive shape of every successful `conditional_fetch` result: `Fresh`
serve, recovered revalidation failure (warning 111), 304 refresh, 200
replacement, or upstream response discarded. -/
theorem conditional_fetch_shapes (c : HttpCache) (w : World) (m : Middleware)
    (cached0 : HttpResponse) (policy : CachePolicy) (s : Store)
    (res : HttpResponse) (fc : Bool)
    (h : (c.conditional_fetch w m cached0 policy s).1 = .ok res fc) :
    (∃ parts, policy.before_request = .fresh parts ∧ fc = true ∧
      res = (if c.options.cache_status_headers then
        ((cached0.update_headers parts).cache_status .HIT).cache_lookup_status .HIT
        else cached0.update_headers parts))
    ∨ (fc = true ∧ ∃ u c1, m.url = .ok u ∧
        cached0.add_warning u 111 "Revalidation failed" w.now = some c1 ∧
        res = (if c.options.cache_status_headers then c1.cache_status .HIT else c1))
    ∨ (fc = true ∧ ∃ np parts,
        (w.after_response = .modified np parts ∨ w.after_response = .notModified np parts) ∧
        res = (if c.options.cache_status_headers then
          ((cached0.update_headers parts).cache_status .HIT).cache_lookup_status .HIT
          else cached0.update_headers parts))
    ∨ (fc = false ∧ ∃ cond_res, m.remote_fetch = .ok cond_res ∧
        res = (if c.options.cache_status_headers then
          (cond_res.cache_status .MISS).cache_lookup_status .HIT else cond_res))
    ∨ (fc = true ∧
        res = (if c.options.cache_status_headers then cached0.cache_status .HIT else cached0)) := by
  unfold HttpCache.conditional_fetch at h
  cases hparts : m.parts with
  | error e => rw [hparts] at h; simp at h
  | ok req_parts =>
    rw [hparts] at h
    dsimp only at h
    cases hbr : policy.before_request with
    | fresh parts =>
      rw [hbr] at h
      dsimp only at h
      obtain ⟨hres, hfc⟩ := Outcome.ok.inj h
      exact Or.inl ⟨parts, rfl, hfc.symm, hres.symm⟩
    | stale rp mt =>
      rw [hbr] at h
      dsimp only at h
      cases hupd : (if mt then m.update_headers else Except.ok ()) with
      | error e => rw [hupd] at h; simp at h
      | ok u0 =>
        rw [hupd] at h
        dsimp only at h
        cases hurl : m.url with
        | error e => rw [hurl] at h; simp at h
        | ok req_url =>
          rw [hurl] at h
          dsimp only at h
          cases hrf : m.remote_fetch with
          | error e =>
            rw [hrf] at h
            dsimp only at h
            split at h
            · simp at h
            · cases haw : cached0.add_warning req_url 111 "Revalidation failed" w.now with
              | none => rw [haw] at h; simp at h
              | some c1 =>
                rw [haw] at h
                dsimp only at h
                obtain ⟨hres, hfc⟩ := Outcome.ok.inj h
                exact Or.inr (Or.inl ⟨hfc.symm, req_url, c1, rfl, haw, hres.symm⟩)
          | ok cond_res =>
            rw [hrf] at h
            dsimp only at h
            cases hst : status_from_u16 cond_res.parts.status with
            | error e => rw [hst] at h; simp at h
            | ok status =>
              rw [hst] at h
              dsimp only at h
              split at h
              · cases haw : cached0.add_warning req_url 111 "Revalidation failed" w.now with
                | none => rw [haw] at h; simp at h
                | some c1 =>
                  rw [haw] at h
                  dsimp only at h
                  obtain ⟨hres, hfc⟩ := Outcome.ok.inj h
                  exact Or.inr (Or.inl ⟨hfc.symm, req_url, c1, rfl, haw, hres.symm⟩)
              · split at h
                · split at h
                  · cases har : w.after_response with
                    | modified np parts =>
                      rw [har] at h
                      dsimp only at h
                      cases hput : mgr_put w s (c.options.create_cache_key req_parts none)
                          (if c.options.cache_status_headers then
                            ((cached0.update_headers parts).cache_status .HIT).cache_lookup_status .HIT
                            else cached0.update_headers parts) np with
                      | error e => rw [hput] at h; simp at h
                      | ok s1 =>
                        rw [hput] at h
                        dsimp only at h
                        obtain ⟨hres, hfc⟩ := Outcome.ok.inj h
                        exact Or.inr (Or.inr (Or.inl ⟨hfc.symm, np, parts, Or.inl rfl, hres.symm⟩))
                    | notModified np parts =>
                      rw [har] at h
                      dsimp only at h
                      cases hput : mgr_put w s (c.options.create_cache_key req_parts none)
                          (if c.options.cache_status_headers then
                            ((cached0.update_headers parts).cache_status .HIT).cache_lookup_status .HIT
                            else cached0.update_headers parts) np with
                      | error e => rw [hput] at h; simp at h
                      | ok s1 =>
                        rw [hput] at h
                        dsimp only at h
                        obtain ⟨hres, hfc⟩ := Outcome.ok.inj h
                        exact Or.inr (Or.inr (Or.inl ⟨hfc.symm, np, parts, Or.inr rfl, hres.symm⟩))
                  · simp at h
                · split at h
                  · cases hp2 : derive_policy c m cond_res with
                    | error e => rw [hp2] at h; simp at h
                    | ok policy2 =>
                      rw [hp2] at h
                      dsimp only at h
                      cases hput : mgr_put w s (c.options.create_cache_key req_parts none)
                          (if c.options.cache_status_headers then
                            (cond_res.cache_status .MISS).cache_lookup_status .HIT
                            else cond_res) policy2 with
                      | error e => rw [hput] at h; simp at h
                      | ok s1 =>
                        rw [hput] at h
                        dsimp only at h
                        obtain ⟨hres, hfc⟩ := Outcome.ok.inj h
                        exact Or.inr (Or.inr (Or.inr (Or.inl ⟨hfc.symm, cond_res, rfl, hres.symm⟩)))
                  · dsimp only at h
                    obtain ⟨hres, hfc⟩ := Outcome.ok.inj h
                    exact Or.inr (Or.inr (Or.inr (Or.inr ⟨hfc.symm, hres.symm⟩)))

/-! Section: run_miss and run_hit lemmas -/

theorem run_miss_no_get (c : HttpCache) (w : World) (m : Middleware) (s : Store)
    (k : String) (b : Bool) : Event.get k b ∉ (c.run_miss w m s).2.2 := by
  unfold HttpCache.run_miss
  cases hm : c.cache_mode m with
  | error e => simp
  | ok mode =>
    dsimp only
    cases mode
    case OnlyIfCached =>
      cases hu : m.url with
      | error e => simp
      | ok u => simp
    all_goals exact remote_fetch_no_get c w m s k b

theorem run_miss_ok (c : HttpCache) (w : World) (m : Middleware) (s : Store)
    (res : HttpResponse) (fc : Bool) (h : (c.run_miss w m s).1 = .ok res fc) :
    fc = false ∧ (c.options.cache_status_headers = true →
      hGet res.parts.headers XCACHE = some "MISS" ∧
      hGet res.parts.headers XCACHELOOKUP = some "MISS") := by
  unfold HttpCache.run_miss at h
  cases hm : c.cache_mode m with
  | error e => rw [hm] at h; simp at h
  | ok mode =>
    rw [hm] at h
    dsimp only at h
    cases mode
    case OnlyIfCached =>
      cases hu : m.url with
      | error e => rw [hu] at h; simp at h
      | ok u =>
        rw [hu] at h
        dsimp only at h
        obtain ⟨hres, hfc⟩ := Outcome.ok.inj h
        subst hres
        refine ⟨hfc.symm, fun hcsh => ?_⟩
        rw [hcsh]
        exact ⟨miss_tag_xcache _, miss_tag_lookup _⟩
    all_goals exact remote_fetch_ok c w m s res fc h

theorem put_in_remote_fetch (c : HttpCache) (w : World) (m : Middleware) (s : Store)
    (k : String) (h : Event.put k ∈ (c.remote_fetch w m s).2.2) :
    m.is_method_get_head = true ∨ c.cache_mode m = .ok CacheMode.IgnoreRules := by
  unfold HttpCache.remote_fetch at h
  cases hf : m.remote_fetch with
  | error e => rw [hf] at h; simp at h
  | ok res0 =>
    rw [hf] at h
    dsimp only at h
    cases hp : derive_policy c m (miss_tag c.options.cache_status_headers res0) with
    | error e => rw [hp] at h; simp at h
    | ok policy =>
      rw [hp] at h
      dsimp only at h
      cases hm : c.cache_mode m with
      | error e => rw [hm] at h; simp at h
      | ok mode =>
        rw [hm] at h
        dsimp only at h
        split at h
        · rename_i hcache
          simp only [Bool.or_eq_true, Bool.and_eq_true, beq_iff_eq, bne_iff_ne] at hcache
          rcases hcache with h1 | h2
          · exact Or.inl h1.1.1.1
          · exact Or.inr (by rw [h2.1])
        · split at h
          · cases hparts : m.parts with
            | error e => rw [hparts] at h; simp at h
            | ok parts => rw [hparts] at h; simp at h
          · simp at h

theorem put_in_run_hit (c : HttpCache) (w : World) (m : Middleware)
    (cached : HttpResponse) (policy : CachePolicy) (s : Store) (k : String)
    (h : Event.put k ∈ (c.run_hit w m cached policy s).2.2) :
    c.cache_mode m = .ok CacheMode.Default ∨ m.is_method_get_head = true ∨
      c.cache_mode m = .ok CacheMode.IgnoreRules := by
  unfold HttpCache.run_hit at h
  cases hm : c.cache_mode m with
  | error e => rw [hm] at h; simp at h
  | ok mode =>
    rw [hm] at h
    dsimp only at h
    cases mode
    case Default => exact Or.inl rfl
    case NoCache =>
      cases hfn : m.force_no_cache with
      | error e => rw [hfn] at h; simp at h
      | ok u =>
        rw [hfn] at h
        dsimp only at h
        cases hro : (c.remote_fetch w m s).1 with
        | ok r0 fc0 =>
          rw [hro] at h
          dsimp only at h
          rcases put_in_remote_fetch c w m s k h with hgh | hir
          · exact Or.inr (Or.inl hgh)
          · rw [hm] at hir
            exact absurd hir (by simp)
        | err e =>
          rw [hro] at h
          dsimp only at h
          rcases put_in_remote_fetch c w m s k h with hgh | hir
          · exact Or.inr (Or.inl hgh)
          · rw [hm] at hir
            exact absurd hir (by simp)
        | panicked =>
          rw [hro] at h
          dsimp only at h
          rcases put_in_remote_fetch c w m s k h with hgh | hir
          · exact Or.inr (Or.inl hgh)
          · rw [hm] at hir
            exact absurd hir (by simp)
    case ForceCache =>
      cases haw : cached.add_warning cached.parts.url 112 "Disconnected operation" w.now with
      | none => rw [haw] at h; simp at h
      | some c1 => rw [haw] at h; simp at h
    case OnlyIfCached =>
      cases haw : cached.add_warning cached.parts.url 112 "Disconnected operation" w.now with
      | none => rw [haw] at h; simp at h
      | some c1 => rw [haw] at h; simp at h
    case IgnoreRules =>
      cases haw : cached.add_warning cached.parts.url 112 "Disconnected operation" w.now with
      | none => rw [haw] at h; simp at h
      | some c1 => rw [haw] at h; simp at h
    case NoStore =>
      rcases put_in_remote_fetch c w m s k h with hgh | hir
      · exact Or.inr (Or.inl hgh)
      · rw [hm] at hir
        exact absurd hir (by simp)
    case Reload =>
      rcases put_in_remote_fetch c w m s k h with hgh | hir
      · exact Or.inr (Or.inl hgh)
      · rw [hm] at hir
        exact absurd hir (by simp)

theorem run_hit_no_get (c : HttpCache) (w : World) (m : Middleware)
    (cached : HttpResponse) (policy : CachePolicy) (s : Store) (k : String) (b : Bool) :
    Event.get k b ∉ (c.run_hit w m cached policy s).2.2 := by
  unfold HttpCache.run_hit
  cases hm : c.cache_mode m with
  | error e => simp
  | ok mode =>
    dsimp only
    cases mode
    case Default => exact conditional_fetch_no_get c w m cached policy s k b
    case NoCache =>
      cases hfn : m.force_no_cache with
      | error e => simp
      | ok u =>
        dsimp only
        cases hro : (c.remote_fetch w m s).1 <;>
          exact remote_fetch_no_get c w m s k b
    case ForceCache =>
      cases haw : cached.add_warning cached.parts.url 112 "Disconnected operation" w.now with
      | none => simp
      | some c1 => simp
    case OnlyIfCached =>
      cases haw : cached.add_warning cached.parts.url 112 "Disconnected operation" w.now with
      | none => simp
      | some c1 => simp
    case IgnoreRules =>
      cases haw : cached.add_warning cached.parts.url 112 "Disconnected operation" w.now with
      | none => simp
      | some c1 => simp
    all_goals exact remote_fetch_no_get c w m s k b

/-- Exhaustive shape of every successful `run_hit` result by resolved mode. -/
theorem run_hit_shapes (c : HttpCache) (w : World) (m : Middleware)
    (cached : HttpResponse) (policy : CachePolicy) (s : Store)
    (res : HttpResponse) (fc : Bool)
    (h : (c.run_hit w m cached policy s).1 = .ok res fc) :
    (c.cache_mode m = .ok CacheMode.Default ∧
      (c.conditional_fetch w m cached policy s).1 = .ok res fc)
    ∨ (c.cache_mode m = .ok CacheMode.NoCache ∧ ∃ r0,
        (c.remote_fetch w m s).1 = .ok r0 fc ∧
        res = (if c.options.cache_status_headers then r0.cache_lookup_status .HIT else r0))
    ∨ ((c.cache_mode m = .ok CacheMode.ForceCache ∨ c.cache_mode m = .ok CacheMode.OnlyIfCached
          ∨ c.cache_mode m = .ok CacheMode.IgnoreRules) ∧ fc = true ∧ ∃ c1,
        cached.add_warning cached.parts.url 112 "Disconnected operation" w.now = some c1 ∧
        res = (if c.options.cache_status_headers then c1.cache_status .HIT else c1))
    ∨ ((c.cache_mode m = .ok CacheMode.NoStore ∨ c.cache_mode m = .ok CacheMode.Reload) ∧
        (c.remote_fetch w m s).1 = .ok res fc) := by
  unfold HttpCache.run_hit at h
  cases hm : c.cache_mode m with
  | error e => rw [hm] at h; simp at h
  | ok mode =>
    rw [hm] at h
    dsimp only at h
    cases mode
    case Default => exact Or.inl ⟨rfl, h⟩
    case NoCache =>
      cases hfn : m.force_no_cache with
      | error e => rw [hfn] at h; simp at h
      | ok u =>
        rw [hfn] at h
        dsimp only at h
        cases hro : (c.remote_fetch w m s).1 with
        | ok r0 fc0 =>
          rw [hro] at h
          dsimp only at h
          obtain ⟨hres, hfc⟩ := Outcome.ok.inj h
          subst hfc
          exact Or.inr (Or.inl ⟨rfl, r0, rfl, hres.symm⟩)
        | err e => rw [hro] at h; simp at h
        | panicked => rw [hro] at h; simp at h
    case ForceCache =>
      cases haw : cached.add_warning cached.parts.url 112 "Disconnected operation" w.now with
      | none => rw [haw] at h; simp at h
      | some c1 =>
        rw [haw] at h
        dsimp only at h
        obtain ⟨hres, hfc⟩ := Outcome.ok.inj h
        exact Or.inr (Or.inr (Or.inl ⟨Or.inl rfl, hfc.symm, c1, rfl, hres.symm⟩))
    case OnlyIfCached =>
      cases haw : cached.add_warning cached.parts.url 112 "Disconnected operation" w.now with
      | none => rw [haw] at h; simp at h
      | some c1 =>
        rw [haw] at h
        dsimp only at h
        obtain ⟨hres, hfc⟩ := Outcome.ok.inj h
        exact Or.inr (Or.inr (Or.inl ⟨Or.inr (Or.inl rfl), hfc.symm, c1, rfl, hres.symm⟩))
    case IgnoreRules =>
      cases haw : cached.add_warning cached.parts.url 112 "Disconnected operation" w.now with
      | none => rw [haw] at h; simp at h
      | some c1 =>
        rw [haw] at h
        dsimp only at h
        obtain ⟨hres, hfc⟩ := Outcome.ok.inj h
        exact Or.inr (Or.inr (Or.inl ⟨Or.inr (Or.inr rfl), hfc.symm, c1, rfl, hres.symm⟩))
    case NoStore => exact Or.inr (Or.inr (Or.inr ⟨Or.inl rfl, h⟩))
    case Reload => exact Or.inr (Or.inr (Or.inr ⟨Or.inr rfl, h⟩))

/-! Section: run-level lemmas -/

theorem cache_bust_deletes_events_eq (w : World) (ks : List String) (s : Store)
    (oe : Option Err) (s1 : Store) (evs1 : List Event)
    (hbd : cache_bust_deletes w ks s = (oe, s1, evs1)) (e : Event) (he : e ∈ evs1) :
    ∃ k, e = Event.delete k :=
  cache_bust_deletes_events w ks s e (by rw [hbd]; exact he)

theorem cache_bust_deletes_store_get_eq (w : World) (ks : List String) (s : Store)
    (oe : Option Err) (s1 : Store) (evs1 : List Event)
    (hbd : cache_bust_deletes w ks s = (oe, s1, evs1)) (k : String)
    (v : HttpResponse × CachePolicy) (h : store_get s1 k = some v) :
    store_get s k = some v :=
  cache_bust_deletes_store_get w ks s k v (by rw [hbd]; exact h)

theorem put_in_run (c : HttpCache) (w : World) (m : Middleware) (s : Store) (k : String)
    (h : Event.put k ∈ (c.run w m s).2.2) :
    m.is_method_get_head = true ∨ c.cache_mode m = .ok CacheMode.IgnoreRules := by
  unfold HttpCache.run at h
  cases hcc : c.can_cache_request m with
  | error e => rw [hcc] at h; simp at h
  | ok b =>
    rw [hcc] at h
    dsimp only at h
    cases b with
    | false =>
      rw [show (!false) = true from rfl, if_pos rfl] at h
      exact put_in_remote_fetch c w m s k h
    | true =>
      rw [show (!true) = false from rfl, if_neg (by simp)] at h
      cases hparts : m.parts with
      | error e => rw [hparts] at h; simp at h
      | ok parts =>
        rw [hparts] at h
        dsimp only at h
        rcases hbd : cache_bust_deletes w
            (bust_keys c parts (c.options.create_cache_key parts none)) s with ⟨oe, s1, evs1⟩
        rw [hbd] at h
        cases oe with
        | some e =>
          dsimp only at h
          rcases cache_bust_deletes_events_eq w _ s _ s1 evs1 hbd _ h with ⟨k', hk'⟩
          exact absurd hk' (by simp)
        | none =>
          dsimp only at h
          cases hge : w.get_error with
          | some e =>
            rw [show mgr_get w s1 (c.options.create_cache_key parts none) = .error e by
              unfold mgr_get; rw [hge]] at h
            dsimp only at h
            simp only [List.mem_append, List.mem_singleton] at h
            rcases h with h | h
            · rcases cache_bust_deletes_events_eq w _ s _ s1 evs1 hbd _ h with ⟨k', hk'⟩
              exact absurd hk' (by simp)
            · exact absurd h (by simp)
          | none =>
            rw [show mgr_get w s1 (c.options.create_cache_key parts none) =
                .ok (store_get s1 (c.options.create_cache_key parts none)) by
              unfold mgr_get; rw [hge]] at h
            cases hsg : store_get s1 (c.options.create_cache_key parts none) with
            | none =>
              rw [hsg] at h
              dsimp only at h
              rw [with_events_events] at h
              simp only [List.append_assoc, List.mem_append] at h
              rcases h with h | h
              · rcases cache_bust_deletes_events_eq w _ s _ s1 evs1 hbd _ h with ⟨k', hk'⟩
                exact absurd hk' (by simp)
              · simp only [List.mem_append, List.mem_singleton] at h
                rcases h with h | h
                · exact absurd h (by simp)
                · have hmem : Event.put k ∈ (c.remote_fetch w m s1).2.2 := by
                    revert h
                    unfold HttpCache.run_miss
                    cases hm : c.cache_mode m with
                    | error e => intro h; simp at h
                    | ok mode =>
                      dsimp only
                      cases mode
                      case OnlyIfCached =>
                        cases hu : m.url with
                        | error e => intro h; simp at h
                        | ok u => intro h; simp at h
                      all_goals exact fun h => h
                  rcases put_in_remote_fetch c w m s1 k hmem with hgh | hir
                  · exact Or.inl hgh
                  · exact Or.inr hir
            | some entry =>
              obtain ⟨r0, pol⟩ := entry
              rw [hsg] at h
              dsimp only at h
              rw [with_events_events] at h
              simp only [List.append_assoc, List.mem_append] at h
              rcases h with h | h
              · rcases cache_bust_deletes_events_eq w _ s _ s1 evs1 hbd _ h with ⟨k', hk'⟩
                exact absurd hk' (by simp)
              · simp only [List.mem_append, List.mem_singleton] at h
                rcases h with h | h
                · exact absurd h (by simp)
                · rcases put_in_run_hit c w m _ pol s1 k h with hd | hrest
                  · -- Default-mode hit: the cacheable check forces GET/HEAD
                    left
                    unfold HttpCache.can_cache_request at hcc
                    rw [hd] at hcc
                    simp only [Except.map] at hcc
                    simpa using hcc
                  · exact hrest

/-- Decomposition of every successful `run`: bypass fetch, miss path, or
hit path, with the event list split accordingly. -/
theorem run_shapes (c : HttpCache) (w : World) (m : Middleware) (s : Store)
    (res : HttpResponse) (fc : Bool) (s' : Store) (evs : List Event)
    (h : c.run w m s = (.ok res fc, s', evs)) :
    (c.can_cache_request m = .ok false ∧ c.remote_fetch w m s = (.ok res fc, s', evs))
    ∨ (∃ parts s1 evs1, c.can_cache_request m = .ok true ∧ m.parts = .ok parts ∧
        cache_bust_deletes w (bust_keys c parts (c.options.create_cache_key parts none)) s
          = (none, s1, evs1) ∧
        w.get_error = none ∧
        store_get s1 (c.options.create_cache_key parts none) = none ∧
        (c.run_miss w m s1).1 = .ok res fc ∧
        evs = evs1 ++ [Event.get (c.options.create_cache_key parts none) false]
          ++ (c.run_miss w m s1).2.2)
    ∨ (∃ parts s1 evs1 r0 pol, c.can_cache_request m = .ok true ∧ m.parts = .ok parts ∧
        cache_bust_deletes w (bust_keys c parts (c.options.create_cache_key parts none)) s
          = (none, s1, evs1) ∧
        w.get_error = none ∧
        store_get s1 (c.options.create_cache_key parts none) = some (r0, pol) ∧
        (c.run_hit w m (hit_prep c.options.cache_status_headers r0) pol s1).1 = .ok res fc ∧
        evs = evs1 ++ [Event.get (c.options.create_cache_key parts none) true]
          ++ (c.run_hit w m (hit_prep c.options.cache_status_headers r0) pol s1).2.2) := by
  unfold HttpCache.run at h
  cases hcc : c.can_cache_request m with
  | error e => rw [hcc] at h; simp at h
  | ok b =>
    rw [hcc] at h
    dsimp only at h
    cases b with
    | false =>
      rw [show (!false) = true from rfl, if_pos rfl] at h
      exact Or.inl ⟨rfl, h⟩
    | true =>
      rw [show (!true) = false from rfl, if_neg (by simp)] at h
      cases hparts : m.parts with
      | error e => rw [hparts] at h; simp at h
      | ok parts =>
        rw [hparts] at h
        dsimp only at h
        rcases hbd : cache_bust_deletes w
            (bust_keys c parts (c.options.create_cache_key parts none)) s with ⟨oe, s1, evs1⟩
        rw [hbd] at h
        cases oe with
        | some e => dsimp only at h; simp at h
        | none =>
          dsimp only at h
          cases hge : w.get_error with
          | some e =>
            rw [show mgr_get w s1 (c.options.create_cache_key parts none) = .error e by
              unfold mgr_get; rw [hge]] at h
            simp at h
          | none =>
            rw [show mgr_get w s1 (c.options.create_cache_key parts none) =
                .ok (store_get s1 (c.options.create_cache_key parts none)) by
              unfold mgr_get; rw [hge]] at h
            cases hsg : store_get s1 (c.options.create_cache_key parts none) with
            | none =>
              rw [hsg] at h
              dsimp only at h
              have h1 : (c.run_miss w m s1).1 = .ok res fc := by
                rw [← with_events_fst (evs1 ++ [Event.get
                  (c.options.create_cache_key parts none) false]) (c.run_miss w m s1), h]
              have h3 : evs = evs1 ++ [Event.get (c.options.create_cache_key parts none) false]
                  ++ (c.run_miss w m s1).2.2 := by
                rw [← with_events_events (evs1 ++ [Event.get
                  (c.options.create_cache_key parts none) false]) (c.run_miss w m s1), h]
              exact Or.inr (Or.inl ⟨parts, s1, evs1, rfl, rfl, hbd, rfl, hsg, h1, h3⟩)
            | some entry =>
              obtain ⟨r0, pol⟩ := entry
              rw [hsg] at h
              dsimp only at h
              have h1 : (c.run_hit w m (hit_prep c.options.cache_status_headers r0) pol s1).1
                  = .ok res fc := by
                rw [← with_events_fst (evs1 ++ [Event.get
                  (c.options.create_cache_key parts none) true]) _, h]
              have h3 : evs = evs1 ++ [Event.get (c.options.create_cache_key parts none) true]
                  ++ (c.run_hit w m (hit_prep c.options.cache_status_headers r0) pol s1).2.2 := by
                rw [← with_events_events (evs1 ++ [Event.get
                  (c.options.create_cache_key parts none) true]) _, h]
              exact Or.inr (Or.inr ⟨parts, s1, evs1, r0, pol, rfl, rfl, hbd, rfl, hsg, h1, h3⟩)

/-! Section: tag helper lemmas -/

@[simp] theorem render_HIT : HitOrMiss.HIT.render = "HIT" := rfl

@[simp] theorem render_MISS : HitOrMiss.MISS.render = "MISS" := rfl

theorem warning_code_if_tag1 (b : Bool) (r : HttpResponse) :
    (if b then r.cache_status .HIT else r).warning_code = r.warning_code := by
  cases b
  · rfl
  · exact warning_code_cache_status r .HIT

theorem warning_code_if_tag2 (b : Bool) (r : HttpResponse) :
    (if b then (r.cache_status .HIT).cache_lookup_status .HIT else r).warning_code
      = r.warning_code := by
  cases b
  · rfl
  · rw [show (if true then (r.cache_status .HIT).cache_lookup_status .HIT else r)
        = (r.cache_status .HIT).cache_lookup_status .HIT from rfl,
      warning_code_cache_lookup_status, warning_code_cache_status]

theorem body_if_tag1 (b : Bool) (r : HttpResponse) :
    (if b then r.cache_status .HIT else r).body = r.body := by
  cases b <;> rfl

/-- Status headers of a successful `conditional_fetch` result: the lookup
header stays `HIT` and the `x-cache` header is `HIT` exactly when the body
is the cached one. -/
theorem conditional_fetch_status (c : HttpCache) (w : World) (m : Middleware)
    (cached0 : HttpResponse) (policy : CachePolicy) (s : Store)
    (res : HttpResponse) (fc : Bool)
    (hcsh : c.options.cache_status_headers = true)
    (hlk : hGet cached0.parts.headers XCACHELOOKUP = some "HIT")
    (h : (c.conditional_fetch w m cached0 policy s).1 = .ok res fc) :
    hGet res.parts.headers XCACHELOOKUP = some "HIT" ∧
    (hGet res.parts.headers XCACHE = some "HIT" ↔ fc = true) := by
  rcases conditional_fetch_shapes c w m cached0 policy s res fc h with
    ⟨parts, _, hfc, hres⟩ | ⟨hfc, u, c1, _, haw, hres⟩ | ⟨hfc, np, parts, _, hres⟩ |
    ⟨hfc, cond_res, _, hres⟩ | ⟨hfc, hres⟩
  · subst hres hfc
    rw [hcsh]
    rw [if_pos rfl]
    refine ⟨by rw [hGet_cache_lookup_status_self]; rfl, ?_⟩
    rw [hGet_cache_lookup_status_ne _ _ _ (by decide), hGet_cache_status_self]
    simp
  · subst hres hfc
    rw [hcsh, if_pos rfl]
    constructor
    · rw [hGet_cache_status_ne _ _ _ (by decide),
        hGet_add_warning_ne _ _ _ _ _ _ _ (by decide) haw]
      exact hlk
    · rw [hGet_cache_status_self]
      simp
  · subst hres hfc
    rw [hcsh, if_pos rfl]
    refine ⟨by rw [hGet_cache_lookup_status_self]; rfl, ?_⟩
    rw [hGet_cache_lookup_status_ne _ _ _ (by decide), hGet_cache_status_self]
    simp
  · subst hres hfc
    rw [hcsh, if_pos rfl]
    refine ⟨by rw [hGet_cache_lookup_status_self]; rfl, ?_⟩
    rw [hGet_cache_lookup_status_ne _ _ _ (by decide), hGet_cache_status_self]
    simp
  · subst hres hfc
    rw [hcsh, if_pos rfl]
    constructor
    · rw [hGet_cache_status_ne _ _ _ (by decide)]
      exact hlk
    · rw [hGet_cache_status_self]
      simp

/-- Status headers of a successful `run_hit` result, for resolved modes
other than `Reload` (and `NoStore`, which cannot reach the hit path). -/
theorem run_hit_status (c : HttpCache) (w : World) (m : Middleware)
    (cached : HttpResponse) (policy : CachePolicy) (s : Store)
    (res : HttpResponse) (fc : Bool)
    (hcsh : c.options.cache_status_headers = true)
    (hlk : hGet cached.parts.headers XCACHELOOKUP = some "HIT")
    (hcc : c.can_cache_request m = .ok true)
    (hnr : c.cache_mode m ≠ .ok CacheMode.Reload)
    (h : (c.run_hit w m cached policy s).1 = .ok res fc) :
    hGet res.parts.headers XCACHELOOKUP = some "HIT" ∧
    (hGet res.parts.headers XCACHE = some "HIT" ↔ fc = true) := by
  rcases run_hit_shapes c w m cached policy s res fc h with
    ⟨hm, hcf⟩ | ⟨hm, r0, hro, hres⟩ | ⟨hm, hfc, c1, haw, hres⟩ | ⟨hm, hro⟩
  · exact conditional_fetch_status c w m cached policy s res fc hcsh hlk hcf
  · obtain ⟨hfc, hhd⟩ := remote_fetch_ok c w m s r0 fc hro
    obtain ⟨hx, hl⟩ := hhd hcsh
    subst hres hfc
    rw [hcsh, if_pos rfl]
    constructor
    · rw [hGet_cache_lookup_status_self]
      rfl
    · rw [hGet_cache_lookup_status_ne _ _ _ (by decide), hx]
      simp
  · subst hres hfc
    rw [hcsh, if_pos rfl]
    constructor
    · rw [hGet_cache_status_ne _ _ _ (by decide),
        hGet_add_warning_ne _ _ _ _ _ _ _ (by decide) haw]
      exact hlk
    · rw [hGet_cache_status_self]
      simp
  · rcases hm with hm | hm
    · exfalso
      unfold HttpCache.can_cache_request at hcc
      rw [hm] at hcc
      simp [Except.map] at hcc
    · exact absurd hm hnr

/-! Section: Claim C1 -/

/-- Claim C1 counterexample: The claim says a put occurs only for GET/HEAD
requests. Under `IgnoreRules`, a POST whose fetch returns 200 is stored:
the run's event list contains a `put` although `is_method_get_head` is
`false`. -/
theorem c1_counterexample :
    fxMwPOST.is_method_get_head = false ∧
    Event.put "POST:http://e.com/" ∈
      (HttpCache.run { mode := .IgnoreRules, options := fxOpts } fxWorld fxMwPOST []).2.2 := by
  refine ⟨rfl, ?_⟩
  rw [show (HttpCache.run { mode := .IgnoreRules, options := fxOpts } fxWorld fxMwPOST []).2.2
      = [Event.get "POST:http://e.com/" false, Event.fetch, Event.put "POST:http://e.com/"]
    from rfl]
  simp

/-- Claim C1 (amended): A new entry is written to the store (a put occurs)
only if the request's method is GET or HEAD, **or the resolved cache mode
is `IgnoreRules`** (under which `remote_fetch` forces storability for 200
responses regardless of method). -/
theorem c1_put_requires_get_head_or_ignore_rules (c : HttpCache) (w : World)
    (m : Middleware) (s : Store) (k : String)
    (h : Event.put k ∈ (c.run w m s).2.2) :
    m.is_method_get_head = true ∨ c.cache_mode m = .ok CacheMode.IgnoreRules :=
  put_in_run c w m s k h

/-- Claim C1 witness: A concrete GET run that stores an entry, fed to the
amended theorem. -/
theorem c1_witness :
    Event.put fxKey ∈
      (HttpCache.run { mode := .Default, options := fxOpts } fxWorld fxMw []).2.2
    ∧ (fxMw.is_method_get_head = true ∨
       HttpCache.cache_mode { mode := .Default, options := fxOpts } fxMw
         = .ok CacheMode.IgnoreRules) := by
  have hm : Event.put fxKey ∈
      (HttpCache.run { mode := .Default, options := fxOpts } fxWorld fxMw []).2.2 := by
    rw [show (HttpCache.run { mode := .Default, options := fxOpts } fxWorld fxMw []).2.2
        = [Event.get fxKey false, Event.fetch, Event.put fxKey] from rfl]
    simp
  exact ⟨hm, c1_put_requires_get_head_or_ignore_rules _ fxWorld fxMw [] fxKey hm⟩

/-! Section: Claim C2 -/

/-- Claim C2 counterexample: Under `Reload` with a stored entry present, the
lookup finds the entry (`get` event with `found = true`) but the returned
response carries `x-cache-lookup: MISS`, refuting the claimed iff. -/
theorem c2_counterexample :
    (HttpCache.run { mode := .Reload, options := fxOpts } fxWorld fxMw fxStore).1 =
      .ok { body := "net",
            parts := { headers := [(XCACHELOOKUP, "MISS"), (XCACHE, "MISS")],
                       status := 200, url := fxUrl, version := .Http11 } } false
    ∧ Event.get fxKey true ∈
        (HttpCache.run { mode := .Reload, options := fxOpts } fxWorld fxMw fxStore).2.2
    ∧ hGet [(XCACHELOOKUP, "MISS"), (XCACHE, "MISS")] XCACHELOOKUP = some "MISS" := by
  refine ⟨rfl, ?_, rfl⟩
  rw [show (HttpCache.run { mode := .Reload, options := fxOpts } fxWorld fxMw fxStore).2.2
      = [Event.get fxKey true, Event.fetch, Event.put fxKey] from rfl]
  simp

/-- Claim C2 (amended): With `cache_status_headers` enabled and a resolved
cache mode other than `Reload`, a successful `run` carries
`x-cache-lookup: HIT` iff the store lookup found an entry, and
`x-cache: HIT` iff the returned body bytes came from the stored entry
(the ghost provenance flag). Under `Reload` a found entry is still
reported as `x-cache-lookup: MISS`. -/
theorem c2_status_headers_iff (c : HttpCache) (w : World) (m : Middleware) (s : Store)
    (mode : CacheMode) (res : HttpResponse) (fc : Bool) (s' : Store) (evs : List Event)
    (hcsh : c.options.cache_status_headers = true)
    (hmode : c.cache_mode m = .ok mode)
    (hnr : mode ≠ CacheMode.Reload)
    (hrun : c.run w m s = (.ok res fc, s', evs)) :
    (hGet res.parts.headers XCACHELOOKUP = some "HIT" ↔ ∃ k, Event.get k true ∈ evs)
    ∧ (hGet res.parts.headers XCACHE = some "HIT" ↔ fc = true) := by
  rcases run_shapes c w m s res fc s' evs hrun with
    ⟨hcc, hrf⟩ | ⟨parts, s1, evs1, hcc, hparts, hbd, hge, hsg, h1, h3⟩ |
    ⟨parts, s1, evs1, r0, pol, hcc, hparts, hbd, hge, hsg, h1, h3⟩
  · have hro : (c.remote_fetch w m s).1 = .ok res fc := by rw [hrf]
    obtain ⟨hfc, hhd⟩ := remote_fetch_ok c w m s res fc hro
    obtain ⟨hx, hl⟩ := hhd hcsh
    have hevs : evs = (c.remote_fetch w m s).2.2 := by rw [hrf]
    constructor
    · constructor
      · intro hhit
        rw [hl] at hhit
        exact absurd hhit (by simp)
      · rintro ⟨k, hk⟩
        rw [hevs] at hk
        exact absurd hk (remote_fetch_no_get c w m s k true)
    · rw [hx, hfc]
      simp
  · obtain ⟨hfc, hhd⟩ := run_miss_ok c w m s1 res fc h1
    obtain ⟨hx, hl⟩ := hhd hcsh
    constructor
    · constructor
      · intro hhit
        rw [hl] at hhit
        exact absurd hhit (by simp)
      · rintro ⟨k, hk⟩
        rw [h3] at hk
        simp only [List.mem_append, List.mem_singleton] at hk
        rcases hk with (hk | hk) | hk
        · rcases cache_bust_deletes_events_eq w _ s _ s1 evs1 hbd _ hk with ⟨k', hk'⟩
          exact absurd hk' (by simp)
        · exact absurd hk (by simp)
        · exact absurd hk (run_miss_no_get c w m s1 k true)
    · rw [hx, hfc]
      simp
  · have hlk : hGet (hit_prep c.options.cache_status_headers r0).parts.headers XCACHELOOKUP
        = some "HIT" := by
      rw [hcsh]
      exact hit_prep_lookup r0
    have hnr' : c.cache_mode m ≠ .ok CacheMode.Reload := by
      rw [hmode]
      intro hx
      injection hx with hx
      exact hnr hx
    obtain ⟨hl, hx⟩ := run_hit_status c w m _ pol s1 res fc hcsh hlk hcc hnr' h1
    refine ⟨⟨fun _ => ⟨c.options.create_cache_key parts none, ?_⟩, fun _ => hl⟩, hx⟩
    rw [h3]
    simp

/-- Claim C2 witness: A concrete Default-mode fresh hit, fed to the amended
theorem: the response carries `HIT`/`HIT` and the body comes from the
store. -/
theorem c2_witness :
    (hGet [(XCACHELOOKUP, "HIT"), (XCACHE, "HIT"), ("cache-control", "public")] XCACHELOOKUP
        = some "HIT"
      ↔ ∃ k, Event.get k true ∈ [Event.get fxKey true])
    ∧ (hGet [(XCACHELOOKUP, "HIT"), (XCACHE, "HIT"), ("cache-control", "public")] XCACHE
        = some "HIT"
      ↔ true = true) :=
  c2_status_headers_iff { mode := .Default, options := fxOpts } fxWorld fxMw
    [(fxKey, (fxEntry, fxPolicyFresh))] CacheMode.Default
    { body := "test",
      parts := { headers := [(XCACHELOOKUP, "HIT"), (XCACHE, "HIT"),
                             ("cache-control", "public")],
                 status := 200, url := fxUrl, version := .Http11 } }
    true [(fxKey, (fxEntry, fxPolicyFresh))] [Event.get fxKey true]
    rfl rfl (by decide) rfl

/-! Section: Claim C3 -/

/-- Claim C3 counterexample: A ForceCache hit serves the cached response with
a freshly added `warning` header whose code 112 lies in `[100, 200)`:
responses served from the store can carry a 1xx warning, refuting the
claim's second half. -/
theorem c3_counterexample :
    (outcome_res (HttpCache.run { mode := .ForceCache, options := fxOpts }
        fxWorld fxMw fxStore).1).map HttpResponse.warning_code = some (some 112)
    ∧ outcome_from_cache (HttpCache.run { mode := .ForceCache, options := fxOpts }
        fxWorld fxMw fxStore).1 = some true
    ∧ 100 ≤ 112 ∧ 112 < 200 :=
  ⟨rfl, rfl, by decide, by decide⟩

/-- Claim C3 (amended): A stored warning with code in `[100, 200)` is
stripped on read; consequently, provided the policy evaluator's merged
header parts carry no `warning` header, any warning with code in
`[100, 200)` on a response whose body was served from the store was added
by the engine itself — its code is 111 or 112. -/
theorem c3_one_xx_warning_only_engine (c : HttpCache) (w : World) (m : Middleware)
    (s : Store) (res : HttpResponse) (s' : Store) (evs : List Event) (code : Nat)
    (hpol : ∀ k r p, store_get s k = some (r, p) → no_warning_before p)
    (hafter : no_warning_after w.after_response)
    (hrun : c.run w m s = (.ok res true, s', evs))
    (hwc : res.warning_code = some code)
    (hlo : 100 ≤ code) (hhi : code < 200) :
    code = 111 ∨ code = 112 := by
  rcases run_shapes c w m s res true s' evs hrun with
    ⟨hcc, hrf⟩ | ⟨parts, s1, evs1, hcc, hparts, hbd, hge, hsg, h1, h3⟩ |
    ⟨parts, s1, evs1, r0, pol, hcc, hparts, hbd, hge, hsg, h1, h3⟩
  · have hro : (c.remote_fetch w m s).1 = .ok res true := by rw [hrf]
    obtain ⟨hfc, _⟩ := remote_fetch_ok c w m s res true hro
    exact absurd hfc (by simp)
  · obtain ⟨hfc, _⟩ := run_miss_ok c w m s1 res true h1
    exact absurd hfc (by simp)
  · have hpol' : no_warning_before pol :=
      hpol _ r0 pol (cache_bust_deletes_store_get_eq w _ s _ s1 evs1 hbd _ _ hsg)
    have hstrip := hit_prep_warning_code c.options.cache_status_headers r0
    rcases run_hit_shapes c w m _ pol s1 res true h1 with
      ⟨hm, hcf⟩ | ⟨hm, r1, hro, hres⟩ | ⟨hm, _, c1, haw, hres⟩ | ⟨hm, hro⟩
    · rcases conditional_fetch_shapes c w m _ pol s1 res true hcf with
        ⟨bparts, hbr, _, hres⟩ | ⟨_, u, c1, _, haw, hres⟩ | ⟨_, np, aparts, har, hres⟩ |
        ⟨hfc, _, _, _⟩ | ⟨_, hres⟩
      · exfalso
        subst hres
        rw [warning_code_if_tag2, warning_code_update_of_none _ _ (hpol' bparts hbr)] at hwc
        exact hstrip code hwc ⟨hlo, hhi⟩
      · subst hres
        rw [warning_code_if_tag1, add_warning_code_111 _ u _ w.now c1 haw] at hwc
        injection hwc with hwc
        exact Or.inl hwc.symm
      · exfalso
        subst hres
        have hnw : hGet aparts "warning" = none := by
          rcases har with har | har <;> (rw [har] at hafter; exact hafter)
        rw [warning_code_if_tag2, warning_code_update_of_none _ _ hnw] at hwc
        exact hstrip code hwc ⟨hlo, hhi⟩
      · exact absurd hfc (by simp)
      · exfalso
        subst hres
        rw [warning_code_if_tag1] at hwc
        exact hstrip code hwc ⟨hlo, hhi⟩
    · obtain ⟨hfc, _⟩ := remote_fetch_ok c w m s1 r1 true hro
      exact absurd hfc (by simp)
    · subst hres
      rw [warning_code_if_tag1, add_warning_code_112 _ _ _ w.now c1 haw] at hwc
      injection hwc with hwc
      exact Or.inr hwc.symm
    · obtain ⟨hfc, _⟩ := remote_fetch_ok c w m s1 res true hro
      exact absurd hfc (by simp)

/-- Claim C3 witness: The amended theorem applied to the concrete ForceCache
hit whose served response carries warning 112. -/
theorem c3_witness : (112 : Nat) = 111 ∨ (112 : Nat) = 112 := by
  have hpol : ∀ k r p, store_get fxStore k = some (r, p) → no_warning_before p := by
    intro k r p hk
    by_cases hkey : k = fxKey
    · subst hkey
      have hk' : (some (fxEntry, fxPolicy) : Option (HttpResponse × CachePolicy))
          = some (r, p) := hk
      have hp : p = fxPolicy := (congrArg Prod.snd (Option.some.inj hk')).symm
      subst hp
      intro bparts hbr
      exact absurd hbr (by simp [fxPolicy])
    · exfalso
      have hnone : store_get fxStore k = none := by
        unfold store_get fxStore
        rw [List.find?_eq_none.mpr (fun x hx => by
          simp only [List.mem_singleton] at hx
          subst hx
          simp only [beq_iff_eq]
          exact fun hh => hkey hh.symm)]
        rfl
      rw [hnone] at hk
      exact absurd hk (by simp)
  exact c3_one_xx_warning_only_engine { mode := .ForceCache, options := fxOpts }
    fxWorld fxMw fxStore
    { body := "test",
      parts := { headers := [(XCACHE, "HIT"),
                             ("warning", "112 e.com \"Disconnected operation\" \"NOW\""),
                             (XCACHELOOKUP, "HIT"), ("cache-control", "public")],
                 status := 200, url := fxUrl, version := .Http11 } }
    fxStore [Event.get fxKey true] 112 hpol rfl rfl rfl (by decide) (by decide)

/-! Section: Claim C4 -/

/-- Claim C4 counterexample: A cache-bust delete error is **not** swallowed:
with `cache_bust` returning key `"b"` and the store failing that delete,
`run` aborts with the storage error instead of proceeding to the lookup
and returning a response. -/
theorem c4_counterexample :
    (HttpCache.run
      { mode := .Default,
        options := { fxOpts with cache_bust := some (fun _ _ _ => ["b"]) } }
      { fxWorld with
        delete_error := fun k => if k = "b" then some (.external 7) else none }
      fxMw fxStore).1 = .err (.external 7) := rfl

/-- Claim C4 (amended): Cache-bust deletions are **not** best-effort: the
source applies `?` to each delete, so the first failing delete aborts
`run` with that storage error, before any lookup happens. (Only the
sibling-GET invalidation delete in `remote_fetch` swallows its error.) -/
theorem c4_bust_delete_error_propagates (c : HttpCache) (w : World) (m : Middleware)
    (s : Store) (parts : ReqParts) (k : String) (ks : List String) (e : Err)
    (hcc : c.can_cache_request m = .ok true)
    (hparts : m.parts = .ok parts)
    (hbk : bust_keys c parts (c.options.create_cache_key parts none) = k :: ks)
    (hde : w.delete_error k = some e) :
    (c.run w m s).1 = .err e ∧ ∀ k' b, Event.get k' b ∉ (c.run w m s).2.2 := by
  have hrun : c.run w m s = (.err e, s, [Event.delete k]) := by
    unfold HttpCache.run
    rw [hcc]
    dsimp only
    rw [show (!true) = false from rfl, if_neg (by simp)]
    rw [hparts]
    dsimp only
    rw [hbk]
    rw [show cache_bust_deletes w (k :: ks) s = (some e, s, [Event.delete k]) by
      unfold cache_bust_deletes mgr_delete
      rw [hde]]
  rw [hrun]
  exact ⟨rfl, fun k' b => by simp⟩

/-- Claim C4 witness: The amended theorem at the concrete failing-bust run. -/
theorem c4_witness :
    (HttpCache.run
      { mode := .Default,
        options := { fxOpts with cache_bust := some (fun _ _ _ => ["b"]) } }
      { fxWorld with
        delete_error := fun k => if k = "b" then some (.external 7) else none }
      fxMw fxStore).1 = .err (.external 7)
    ∧ ∀ k' b, Event.get k' b ∉
      (HttpCache.run
        { mode := .Default,
          options := { fxOpts with cache_bust := some (fun _ _ _ => ["b"]) } }
        { fxWorld with
          delete_error := fun k => if k = "b" then some (.external 7) else none }
        fxMw fxStore).2.2 :=
  c4_bust_delete_error_propagates _ _ fxMw fxStore
    { method := "GET", uri := "http://e.com/" } "b" [] (.external 7) rfl rfl rfl rfl

/-! Section: Claim C5 -/

/-- Claim C5: In the write-through step (`remote_fetch`), a put occurs iff
(the method is GET/HEAD, the resolved mode is not `NoStore`, the response
status is 200, and the policy is storable) or (the resolved mode is
`IgnoreRules` and the status is 200). -/
theorem c5_storability (c : HttpCache) (w : World) (m : Middleware) (s : Store)
    (res : HttpResponse) (pol : CachePolicy) (mode : CacheMode) (parts : ReqParts)
    (hf : m.remote_fetch = .ok res)
    (hp : derive_policy c m (miss_tag c.options.cache_status_headers res) = .ok pol)
    (hmode : c.cache_mode m = .ok mode)
    (hparts : m.parts = .ok parts) :
    (∃ k, Event.put k ∈ (c.remote_fetch w m s).2.2) ↔
      ((m.is_method_get_head = true ∧ mode ≠ CacheMode.NoStore ∧ res.parts.status = 200 ∧
        pol.is_storable = true)
       ∨ (mode = CacheMode.IgnoreRules ∧ res.parts.status = 200)) := by
  unfold HttpCache.remote_fetch
  rw [hf]
  dsimp only
  rw [hp]
  dsimp only
  rw [hmode]
  dsimp only
  split
  · rename_i hcache
    simp only [Bool.or_eq_true, Bool.and_eq_true, beq_iff_eq, bne_iff_ne,
      miss_tag_status] at hcache
    constructor
    · intro _
      tauto
    · intro _
      rw [hparts]
      dsimp only
      refine ⟨c.options.create_cache_key parts none, ?_⟩
      cases hput : mgr_put w s (c.options.create_cache_key parts none)
          (miss_tag c.options.cache_status_headers res) pol <;> simp
  · rename_i hcache
    simp only [Bool.or_eq_true, Bool.and_eq_true, beq_iff_eq, bne_iff_ne,
      miss_tag_status] at hcache
    constructor
    · rintro ⟨k, hk⟩
      exfalso
      revert hk
      split
      · rw [hparts]
        dsimp only
        intro hk
        simp at hk
      · intro hk
        simp at hk
    · intro hform
      exfalso
      exact hcache (by tauto)

/-- Claim C5 witness: The iff evaluated at a concrete storable GET fetch. -/
theorem c5_witness :
    (∃ k, Event.put k ∈
      (HttpCache.remote_fetch { mode := .Default, options := fxOpts } fxWorld fxMw []).2.2) ↔
      ((fxMw.is_method_get_head = true ∧ CacheMode.Default ≠ CacheMode.NoStore ∧
        fxNet.parts.status = 200 ∧ fxPolicy.is_storable = true)
       ∨ (CacheMode.Default = CacheMode.IgnoreRules ∧ fxNet.parts.status = 200)) :=
  c5_storability { mode := .Default, options := fxOpts } fxWorld fxMw [] fxNet fxPolicy
    CacheMode.Default { method := "GET", uri := "http://e.com/" } rfl rfl rfl rfl

/-! Section: Claim C6 -/

/-- Claim C6: In a Default-mode conditional revalidation (the `Stale` branch
of `conditional_fetch`, which `run` enters exactly on a Default-mode hit)
whose remote fetch fails: if the cached response's `cache-control`
contains `must-revalidate` the error is propagated and the cached response
is not returned; otherwise the cached response is returned (its body
bytes) with warning 111 for the request URL, and `x-cache: HIT` when
status headers are enabled. The request URL must have a host, else
`add_warning` panics (see C10). -/
theorem c6_revalidation_error (c : HttpCache) (w : World) (m : Middleware)
    (cached : HttpResponse) (policy : CachePolicy) (s : Store)
    (rp : Headers) (mt : Bool) (u : Url) (host : String) (e : Err) (parts : ReqParts)
    (hparts : m.parts = .ok parts)
    (hbr : policy.before_request = .stale rp mt)
    (hupd : m.update_headers = .ok ())
    (hurl : m.url = .ok u)
    (hhost : u.host = some host)
    (hrf : m.remote_fetch = .error e) :
    (cached.must_revalidate = true →
      c.conditional_fetch w m cached policy s = (.err e, s, [Event.fetch]))
    ∧ (cached.must_revalidate = false →
      ∃ res, c.conditional_fetch w m cached policy s = (.ok res true, s, [Event.fetch])
        ∧ res.body = cached.body
        ∧ res.warning_code = some 111
        ∧ (c.options.cache_status_headers = true →
            hGet res.parts.headers XCACHE = some "HIT")) := by
  have hbase : ∀ r : RunResult,
      (if cached.must_revalidate then (Outcome.err e, s, [Event.fetch]) else r)
        = (if cached.must_revalidate then (Outcome.err e, s, [Event.fetch]) else r) := fun _ => rfl
  unfold HttpCache.conditional_fetch
  rw [hparts]
  dsimp only
  rw [hbr]
  dsimp only
  rw [show (if mt then m.update_headers else Except.ok ()) = Except.ok () by
    cases mt
    · rfl
    · rw [if_pos rfl, hupd]]
  dsimp only
  rw [hurl]
  dsimp only
  rw [hrf]
  dsimp only
  constructor
  · intro hmr
    rw [hmr, if_pos rfl]
  · intro hmr
    rw [hmr, if_neg (by simp)]
    rw [add_warning_some cached u 111 "Revalidation failed" w.now host hhost]
    dsimp only
    refine ⟨_, rfl, ?_, ?_, ?_⟩
    · rw [body_if_tag1]
    · rw [warning_code_if_tag1]
      exact add_warning_code_111 cached u "Revalidation failed" w.now _
        (add_warning_some cached u 111 "Revalidation failed" w.now host hhost)
    · intro hcsh
      rw [hcsh, if_pos rfl, hGet_cache_status_self]
      rfl

/-- Claim C6 witness: Both branches at concrete inputs: the `must-revalidate`
entry propagates the error; the plain entry is served with warning 111. -/
theorem c6_witness :
    (fxEntryMR.must_revalidate = true →
      HttpCache.conditional_fetch { mode := .Default, options := fxOpts } fxWorld
        { fxMw with remote_fetch := .error (.external 3) } fxEntryMR fxPolicy fxStore
        = (.err (.external 3), fxStore, [Event.fetch]))
    ∧ (fxEntryMR.must_revalidate = false →
      ∃ res, HttpCache.conditional_fetch { mode := .Default, options := fxOpts } fxWorld
          { fxMw with remote_fetch := .error (.external 3) } fxEntryMR fxPolicy fxStore
          = (.ok res true, fxStore, [Event.fetch])
        ∧ res.body = fxEntryMR.body
        ∧ res.warning_code = some 111
        ∧ (fxOpts.cache_status_headers = true →
            hGet res.parts.headers XCACHE = some "HIT")) :=
  c6_revalidation_error { mode := .Default, options := fxOpts } fxWorld
    { fxMw with remote_fetch := .error (.external 3) } fxEntryMR fxPolicy fxStore
    [] false fxUrl "e.com" (.external 3) { method := "GET", uri := "http://e.com/" }
    rfl rfl rfl rfl rfl rfl

/-! Section: Claim C7 -/

/-- Claim C7: In a Default-mode conditional revalidation where the upstream
returns a 5xx status and the cached response's `cache-control` contains
`must-revalidate`, the returned response carries the cached body, warning
111, and `x-cache: HIT` (when status headers are enabled). -/
theorem c7_5xx_must_revalidate (c : HttpCache) (w : World) (m : Middleware)
    (cached : HttpResponse) (policy : CachePolicy) (s : Store)
    (rp : Headers) (mt : Bool) (u : Url) (host : String) (cond_res : HttpResponse)
    (parts : ReqParts)
    (hparts : m.parts = .ok parts)
    (hbr : policy.before_request = .stale rp mt)
    (hupd : m.update_headers = .ok ())
    (hurl : m.url = .ok u)
    (hhost : u.host = some host)
    (hrf : m.remote_fetch = .ok cond_res)
    (hst1 : 500 ≤ cond_res.parts.status)
    (hst2 : cond_res.parts.status ≤ 599)
    (hmr : cached.must_revalidate = true) :
    ∃ res, c.conditional_fetch w m cached policy s = (.ok res true, s, [Event.fetch])
      ∧ res.body = cached.body
      ∧ res.warning_code = some 111
      ∧ (c.options.cache_status_headers = true →
          hGet res.parts.headers XCACHE = some "HIT") := by
  unfold HttpCache.conditional_fetch
  rw [hparts]
  dsimp only
  rw [hbr]
  dsimp only
  rw [show (if mt then m.update_headers else Except.ok ()) = Except.ok () by
    cases mt
    · rfl
    · rw [if_pos rfl, hupd]]
  dsimp only
  rw [hurl]
  dsimp only
  rw [hrf]
  dsimp only
  rw [show status_from_u16 cond_res.parts.status = .ok cond_res.parts.status by
    unfold status_from_u16
    rw [if_pos (by simp only [Bool.and_eq_true, decide_eq_true_eq]; omega)]]
  dsimp only
  rw [show (is_server_error cond_res.parts.status && cached.must_revalidate) = true by
    rw [hmr, show is_server_error cond_res.parts.status = true by
      unfold is_server_error
      simp only [Bool.and_eq_true, decide_eq_true_eq]
      omega]
    rfl]
  rw [if_pos rfl]
  rw [add_warning_some cached u 111 "Revalidation failed" w.now host hhost]
  dsimp only
  refine ⟨_, rfl, ?_, ?_, ?_⟩
  · rw [body_if_tag1]
  · rw [warning_code_if_tag1]
    exact add_warning_code_111 cached u "Revalidation failed" w.now _
      (add_warning_some cached u 111 "Revalidation failed" w.now host hhost)
  · intro hcsh
    rw [hcsh, if_pos rfl, hGet_cache_status_self]
    rfl

/-- Claim C7 witness: The theorem at a concrete 500 revalidation of a
`must-revalidate` entry. -/
theorem c7_witness :
    ∃ res, HttpCache.conditional_fetch { mode := .Default, options := fxOpts } fxWorld
        { fxMw with remote_fetch := .ok { fxNet with
          parts := { fxNet.parts with status := 500 } } } fxEntryMR fxPolicy fxStore
        = (.ok res true, fxStore, [Event.fetch])
      ∧ res.body = fxEntryMR.body
      ∧ res.warning_code = some 111
      ∧ (fxOpts.cache_status_headers = true →
          hGet res.parts.headers XCACHE = some "HIT") :=
  c7_5xx_must_revalidate { mode := .Default, options := fxOpts } fxWorld
    { fxMw with remote_fetch := .ok { fxNet with
      parts := { fxNet.parts with status := 500 } } } fxEntryMR fxPolicy fxStore
    [] false fxUrl "e.com" { fxNet with parts := { fxNet.parts with status := 500 } }
    { method := "GET", uri := "http://e.com/" }
    rfl rfl rfl rfl rfl rfl (by decide) (by decide) rfl

/-! Section: Claim C8 -/

/-- Claim C8 counterexample: The claim quantifies over *every* request, but a
POST under `OnlyIfCached` fails the cacheable-request check and goes
straight to the network: a fetch occurs and the returned response is the
network 200, not a synthesized 504, although the store holds no entry. -/
theorem c8_counterexample :
    Event.fetch ∈
      (HttpCache.run { mode := .OnlyIfCached, options := fxOpts } fxWorld fxMwPOST []).2.2
    ∧ (HttpCache.run { mode := .OnlyIfCached, options := fxOpts } fxWorld fxMwPOST []).1 =
      .ok { body := "net",
            parts := { headers := [(XCACHELOOKUP, "MISS"), (XCACHE, "MISS")],
                       status := 200, url := fxUrl, version := .Http11 } } false := by
  refine ⟨?_, rfl⟩
  rw [show (HttpCache.run { mode := .OnlyIfCached, options := fxOpts } fxWorld fxMwPOST []).2.2
      = [Event.fetch, Event.delete "GET:http://e.com/"] from rfl]
  simp

/-- Claim C8 (amended): For every request **whose method is GET or HEAD**
under resolved mode `OnlyIfCached`, when the store holds no entry at the
cache key, `run` performs no remote fetch and returns the synthesized
response: status 504, body `GatewayTimeout`, version HTTP/1.1, the request
URL, and an otherwise empty header map (plus the two MISS status headers
when enabled, which is what `miss_tag` adds). -/
theorem c8_only_if_cached_miss (c : HttpCache) (w : World) (m : Middleware) (s : Store)
    (parts : ReqParts) (u : Url) (s1 : Store) (evs1 : List Event)
    (hgh : m.is_method_get_head = true)
    (hmode : c.cache_mode m = .ok CacheMode.OnlyIfCached)
    (hparts : m.parts = .ok parts)
    (hurl : m.url = .ok u)
    (hbd : cache_bust_deletes w (bust_keys c parts (c.options.create_cache_key parts none)) s
      = (none, s1, evs1))
    (hge : w.get_error = none)
    (hmiss : store_get s1 (c.options.create_cache_key parts none) = none) :
    c.run w m s =
      (.ok (miss_tag c.options.cache_status_headers
        { body := "GatewayTimeout",
          parts := { headers := [], status := 504, url := u,
                     version := HttpVersion.Http11 } }) false,
       s1, evs1 ++ [Event.get (c.options.create_cache_key parts none) false])
    ∧ Event.fetch ∉ (c.run w m s).2.2 := by
  have hcc : c.can_cache_request m = .ok true := by
    unfold HttpCache.can_cache_request
    rw [hmode]
    simp [Except.map, hgh]
  have hrun : c.run w m s =
      (.ok (miss_tag c.options.cache_status_headers
        { body := "GatewayTimeout",
          parts := { headers := [], status := 504, url := u,
                     version := HttpVersion.Http11 } }) false,
       s1, evs1 ++ [Event.get (c.options.create_cache_key parts none) false]) := by
    unfold HttpCache.run
    rw [hcc]
    dsimp only
    rw [show (!true) = false from rfl, if_neg (by simp)]
    rw [hparts]
    dsimp only
    rw [hbd]
    dsimp only
    rw [show mgr_get w s1 (c.options.create_cache_key parts none)
        = .ok (store_get s1 (c.options.create_cache_key parts none)) by
      unfold mgr_get
      rw [hge]]
    rw [hmiss]
    dsimp only
    rw [show c.run_miss w m s1 =
        (.ok (miss_tag c.options.cache_status_headers
          { body := "GatewayTimeout",
            parts := { headers := [], status := 504, url := u,
                       version := HttpVersion.Http11 } }) false, s1, []) by
      unfold HttpCache.run_miss
      rw [hmode]
      dsimp only
      rw [hurl]]
    unfold with_events
    simp
  refine ⟨hrun, ?_⟩
  rw [hrun]
  intro hmem
  simp only [List.mem_append, List.mem_singleton] at hmem
  rcases hmem with hm | hm
  · rcases cache_bust_deletes_events_eq w _ s _ s1 evs1 hbd _ hm with ⟨k', hk'⟩
    exact absurd hk' (by simp)
  · exact absurd hm (by simp)

/-- Claim C8 witness: The amended theorem at a concrete cold `OnlyIfCached`
GET. -/
theorem c8_witness :
    HttpCache.run { mode := .OnlyIfCached, options := fxOpts } fxWorld fxMw [] =
      (.ok (miss_tag fxOpts.cache_status_headers
        { body := "GatewayTimeout",
          parts := { headers := [], status := 504, url := fxUrl,
                     version := HttpVersion.Http11 } }) false,
       [], [] ++ [Event.get fxKey false])
    ∧ Event.fetch ∉
      (HttpCache.run { mode := .OnlyIfCached, options := fxOpts } fxWorld fxMw []).2.2 :=
  c8_only_if_cached_miss { mode := .OnlyIfCached, options := fxOpts } fxWorld fxMw []
    { method := "GET", uri := "http://e.com/" } fxUrl [] []
    rfl rfl rfl rfl rfl rfl rfl

/-! Section: Claim C9 -/

/-- Claim C9 counterexample: A POST under `IgnoreRules` whose fetch returns
200 is *stored*, and no delete of the GET-keyed sibling entry happens: the
event list is exactly get/fetch/put, refuting the claim that every
successful non-GET/HEAD request deletes the GET entry. -/
theorem c9_counterexample :
    (HttpCache.run { mode := .IgnoreRules, options := fxOpts } fxWorld fxMwPOST []).2.2 =
      [Event.get "POST:http://e.com/" false, Event.fetch, Event.put "POST:http://e.com/"]
    ∧ Event.delete "GET:http://e.com/" ∉
      (HttpCache.run { mode := .IgnoreRules, options := fxOpts } fxWorld fxMwPOST []).2.2
    ∧ fxMwPOST.is_method_get_head = false := by
  refine ⟨rfl, ?_, rfl⟩
  rw [show (HttpCache.run { mode := .IgnoreRules, options := fxOpts } fxWorld fxMwPOST []).2.2
      = [Event.get "POST:http://e.com/" false, Event.fetch, Event.put "POST:http://e.com/"]
    from rfl]
  simp

/-- Claim C9 (amended): A non-GET/HEAD request with a successful remote fetch
deletes the store entry at the same cache-key derivation with the method
forced to `"GET"` — **unless** the resolved mode is `IgnoreRules` and the
response status is 200 (in which case the response is stored instead).
For the `IgnoreRules` non-200 case the run must reach the fetch through a
miss, hence the extra reachability hypotheses there. -/
theorem c9_unsafe_method_invalidation (c : HttpCache) (w : World) (m : Middleware)
    (s : Store) (mode : CacheMode) (parts : ReqParts) (res : HttpResponse) (pol : CachePolicy)
    (hgh : m.is_method_get_head = false)
    (hmode : c.cache_mode m = .ok mode)
    (hparts : m.parts = .ok parts)
    (hf : m.remote_fetch = .ok res)
    (hp : derive_policy c m (miss_tag c.options.cache_status_headers res) = .ok pol)
    (hnot : ¬(mode = CacheMode.IgnoreRules ∧ res.parts.status = 200))
    (hIR : mode = CacheMode.IgnoreRules →
      c.options.cache_bust = none ∧ w.get_error = none ∧
      store_get s (c.options.create_cache_key parts none) = none) :
    Event.delete (c.options.create_cache_key parts (some "GET")) ∈ (c.run w m s).2.2 := by
  have hdel : ∀ s' : Store,
      Event.delete (c.options.create_cache_key parts (some "GET"))
        ∈ (c.remote_fetch w m s').2.2 := by
    intro s'
    unfold HttpCache.remote_fetch
    rw [hf]
    dsimp only
    rw [hp]
    dsimp only
    rw [hmode]
    dsimp only
    rw [hgh]
    rw [if_neg (by
      intro hx
      simp only [Bool.false_and, Bool.false_or, Bool.and_eq_true, beq_iff_eq,
        miss_tag_status] at hx
      exact hnot hx)]
    rw [show (!false) = true from rfl, if_pos rfl]
    rw [hparts]
    dsimp only
    simp
  by_cases hm : mode = CacheMode.IgnoreRules
  · obtain ⟨hbustn, hge, hmiss⟩ := hIR hm
    subst hm
    have hcc : c.can_cache_request m = .ok true := by
      unfold HttpCache.can_cache_request
      rw [hmode]
      simp [Except.map]
    unfold HttpCache.run
    rw [hcc]
    dsimp only
    rw [show (!true) = false from rfl, if_neg (by simp)]
    rw [hparts]
    dsimp only
    rw [show bust_keys c parts (c.options.create_cache_key parts none) = [] by
      unfold bust_keys
      rw [hbustn]]
    rw [show cache_bust_deletes w [] s = (none, s, []) from rfl]
    dsimp only
    rw [show mgr_get w s (c.options.create_cache_key parts none)
        = .ok (store_get s (c.options.create_cache_key parts none)) by
      unfold mgr_get
      rw [hge]]
    rw [hmiss]
    dsimp only
    rw [with_events_events]
    have hin : Event.delete (c.options.create_cache_key parts (some "GET"))
        ∈ (c.run_miss w m s).2.2 := by
      unfold HttpCache.run_miss
      rw [hmode]
      dsimp only
      exact hdel s
    simp only [List.mem_append]
    exact Or.inr hin
  · have hcc : c.can_cache_request m = .ok false := by
      unfold HttpCache.can_cache_request
      rw [hmode]
      simp [Except.map, hgh, hm]
    unfold HttpCache.run
    rw [hcc]
    dsimp only
    rw [show (!false) = true from rfl, if_pos rfl]
    exact hdel s

/-- Claim C9 witness: The amended theorem at a concrete Default-mode POST. -/
theorem c9_witness :
    Event.delete "GET:http://e.com/" ∈
      (HttpCache.run { mode := .Default, options := fxOpts } fxWorld fxMwPOST fxStore).2.2 :=
  c9_unsafe_method_invalidation { mode := .Default, options := fxOpts } fxWorld fxMwPOST
    fxStore CacheMode.Default { method := "POST", uri := "http://e.com/" } fxNet fxPolicy
    rfl rfl rfl rfl rfl (by simp) (by intro hx; exact absurd hx (by simp))

/-! Section: Claim C10 -/

/-- Claim C10: `HttpResponse::add_warning` is partial: it panics (rather than
returning an error) when the URL has no host component. Hence the
ForceCache/OnlyIfCached/IgnoreRules hit path, which adds warning 112 using
the stored response's own URL, panics when that URL has no host. -/
theorem c10_add_warning_panics (c : HttpCache) (w : World) (m : Middleware) (s : Store)
    (parts : ReqParts) (md : CacheMode) (res0 : HttpResponse) (pol : CachePolicy)
    (hmode : c.cache_mode m = .ok md)
    (hmd : md = CacheMode.ForceCache ∨ md = CacheMode.OnlyIfCached ∨
      md = CacheMode.IgnoreRules)
    (hgh : m.is_method_get_head = true)
    (hparts : m.parts = .ok parts)
    (hbustn : c.options.cache_bust = none)
    (hge : w.get_error = none)
    (hhit : store_get s (c.options.create_cache_key parts none) = some (res0, pol))
    (hhost : res0.parts.url.host = none) :
    (c.run w m s).1 = .panicked := by
  have hcc : c.can_cache_request m = .ok true := by
    unfold HttpCache.can_cache_request
    rw [hmode]
    rcases hmd with h | h | h <;> subst h <;> simp [Except.map, hgh]
  have hw : (hit_prep c.options.cache_status_headers res0).add_warning
      (hit_prep c.options.cache_status_headers res0).parts.url 112
      "Disconnected operation" w.now = none := by
    apply add_warning_none
    rw [hit_prep_url]
    exact hhost
  unfold HttpCache.run
  rw [hcc]
  dsimp only
  rw [show (!true) = false from rfl, if_neg (by simp)]
  rw [hparts]
  dsimp only
  rw [show bust_keys c parts (c.options.create_cache_key parts none) = [] by
    unfold bust_keys
    rw [hbustn]]
  rw [show cache_bust_deletes w [] s = (none, s, []) from rfl]
  dsimp only
  rw [show mgr_get w s (c.options.create_cache_key parts none)
      = .ok (store_get s (c.options.create_cache_key parts none)) by
    unfold mgr_get
    rw [hge]]
  rw [hhit]
  dsimp only
  rw [with_events_fst]
  unfold HttpCache.run_hit
  rw [hmode]
  dsimp only
  rcases hmd with h | h | h <;> subst h <;> (dsimp only; rw [hw])

/-- Claim C10 witness: A concrete ForceCache hit on a stored entry whose URL
has no host: the run panics. -/
theorem c10_witness :
    (HttpCache.run { mode := .ForceCache, options := fxOpts } fxWorld fxMw
      [(fxKey, (fxEntryNoHost, fxPolicy))]).1 = .panicked :=
  c10_add_warning_panics { mode := .ForceCache, options := fxOpts } fxWorld fxMw
    [(fxKey, (fxEntryNoHost, fxPolicy))] { method := "GET", uri := "http://e.com/" }
    CacheMode.ForceCache fxEntryNoHost fxPolicy
    rfl (Or.inl rfl) rfl rfl rfl rfl rfl rfl

end HCache
